import Mathlib

/-!
# Reel generator (`src/app/page.js`): frame synthesis and video assembly

A shallow embedding of the `Home` component of `src/app/page.js`:

* the module constants and the derived frame time,
* the log listener registered on the encoding engine,
* the staged file names,
* `ensureCoreLoaded` and `generate`, as programs over the component state that
  also produce the list of the calls they make (state setters, engine calls,
  browser calls), so that the order of calls can be stated,
* `drawFrame`, over a model of the 2D canvas context that records every call
  it receives together with the settings in force when it paints.

Modelling decisions:

* The encoding engine (`@ffmpeg/ffmpeg`) and the browser are not part of the
  repository. Whether one of their calls throws, and what, is a parameter
  (`Env`); of the engine itself only the `loaded` flag and the set of stored
  file names are kept. A rejected promise is a thrown value; `await` is
  sequencing.
* JavaScript numbers are modelled exactly: naturals where the source only
  counts, rationals for the one rounding, and an arbitrary ordered field with
  a floor function (the reals, where `sin`, `cos`, `sqrt` and `PI` have to
  mean something) for the drawing code. Rounding errors of floating-point
  arithmetic are outside the model.
* `drawFrame` is split along the comments of the source into its ten layers.
-/

namespace Reel

/-! ## Constants (`page.js` lines 7-11) -/

def WIDTH : Nat := 720
def HEIGHT : Nat := 1280
def FPS : Nat := 24
def DURATION_SECONDS : Nat := 5
def FRAME_COUNT : Nat := FPS * DURATION_SECONDS

/-- Line 47, `const t = frameIndex / FPS`: the time in seconds of a frame. -/
def frameTime {α : Type} [Div α] [NatCast α] (frameIndex : α) : α :=
  frameIndex / (FPS : α)

/-! ## The log listener (`page.js` lines 27-29) -/

/-- JS `Array.prototype.slice(-n)`: the last `n` elements, the whole array when
it has fewer. -/
def sliceLast (xs : List String) (n : Nat) : List String :=
  xs.drop (xs.length - n)

/-- Line 28, the state update of the `log` listener:
`(prev.length > 200 ? prev.slice(-200) : prev).concat(message)`. -/
def onLog (prev : List String) (message : String) : List String :=
  (if prev.length > 200 then sliceLast prev 200 else prev).concat message

/-- The stored log after the listener handled `messages` in order, starting
from the initial state `useState([])`. -/
def logAfter (messages : List String) : List String :=
  messages.foldl onLog []

/-! ## Staged file names (`page.js` lines 210 and 246) -/

/-- JS `String(n)` for a non-negative integer: its decimal digits. -/
def jsString (n : Nat) : String := Nat.repr n

/-- JS `s.padStart(targetLength, pad)` for a one-character pad string: `pad`
is repeated on the left until the length reaches `targetLength`; a string
that is already long enough is returned unchanged. -/
def padStart (s : String) (targetLength : Nat) (pad : Char) : String :=
  String.mk (List.replicate (targetLength - s.length) pad) ++ s

/-- Line 210: the template literal
`frame` ++ `String(i + 1).padStart(4, "0")` ++ `.png`. -/
def frameName (i : Nat) : String :=
  "frame" ++ padStart (jsString (i + 1)) 4 '0' ++ ".png"

/-! ## The component state, the engine and the run-time environment -/

/-- A value thrown by a JavaScript call, as far as the `catch` of `generate`
looks at it: `message` is `e?.message` (`none` when it is undefined or null)
and `text` is `String(e)`. -/
structure Thrown where
  message : Option String
  text : String
deriving DecidableEq, Repr

/-- The value of `new Error(message)`. -/
def jsError (message : String) : Thrown :=
  { message := some message,
    text := if message = "" then "Error" else "Error: " ++ message }

/-- Line 251, `e?.message || String(e)`: the message unless it is missing or
the empty string (both falsy), else the string conversion of the value. -/
def errorText (e : Thrown) : String :=
  match e.message with
  | some m => if m = "" then e.text else m
  | none => e.text

/-- The `FFmpeg` instance held in `ffmpegRef.current`: its `loaded` flag and
the names of the files in its in-memory storage. -/
structure Engine where
  loaded : Bool
  files : List String
deriving DecidableEq, Repr

/-- The React state of `Home` (lines 14-19) and the ref of line 21. -/
structure State where
  isLoadingCore : Bool
  isGenerating : Bool
  percent : Int
  videoUrl : String
  logs : List String
  error : String
  ffmpeg : Option Engine
deriving DecidableEq, Repr

/-- What the world outside the component does during one run: for each call
that can reject, the value it throws (`none`: it succeeds). -/
structure Env where
  /-- `toBlobURL(url, mimeType)`, by URL. -/
  toBlobURL : String → Option Thrown
  /-- `ffmpeg.load(...)`. -/
  load : Option Thrown
  /-- Whether `canvas.getContext("2d")` returns a context. -/
  getContext : Bool
  /-- `canvas.toDataURL` followed by `fetchFile`, by frame index. -/
  fetchFile : Nat → Option Thrown
  /-- `ffmpeg.writeFile(name, file)`, by name. -/
  writeFile : String → Option Thrown
  /-- `ffmpeg.exec(args)`. -/
  exec : Option Thrown
  /-- Whether a run of the encoder that returns has written `output.mp4`. -/
  encoded : Bool
  /-- `ffmpeg.readFile(name)`, by name (a missing file throws in any case). -/
  readFile : String → Option Thrown
  /-- The URL returned by `URL.createObjectURL(blob)`. -/
  objectURL : String
  /-- `ffmpeg.deleteFile(name)`, by name (a missing file throws in any case). -/
  deleteFile : String → Option Thrown

/-- The observable steps of a run, in the order they happen. `drawFrame i` is
the call `drawFrame(ctx, i)` of line 207, whose effect on the canvas is the
subject of `drawFrame` below; `fetchFile i` stands for lines 208-209. -/
inductive Event where
  | setError (text : String)
  | setVideoUrl (url : String)
  | setPercent (value : Int)
  | setIsGenerating (value : Bool)
  | setIsLoadingCore (value : Bool)
  | toBlobURL (url mimeType : String)
  | load
  | getContext
  | drawFrame (frameIndex : Nat)
  | fetchFile (frameIndex : Nat)
  | writeFile (name : String)
  | yieldToEventLoop
  | exec (args : List String)
  | readFile (name : String)
  | createObjectURL
  | deleteFile (name : String)
deriving DecidableEq, Repr

/-- What a piece of the program leaves behind: how it completed, the state,
and the events it produced. -/
structure Outcome (β : Type) where
  result : Except Thrown β
  state : State
  events : List Event

/-- A piece of the program: it runs from a state to an outcome. An exception
keeps the state changes made before it was thrown. -/
def Prog (β : Type) : Type := State → Outcome β

def Prog.pure {β : Type} (x : β) : Prog β := fun s => ⟨.ok x, s, []⟩

def Prog.bind {β γ : Type} (m : Prog β) (f : β → Prog γ) : Prog γ := fun s =>
  match m s with
  | ⟨.ok x, s1, ev1⟩ =>
    match f x s1 with
    | ⟨r, s2, ev2⟩ => ⟨r, s2, ev1 ++ ev2⟩
  | ⟨.error e, s1, ev1⟩ => ⟨.error e, s1, ev1⟩

instance : Monad Prog where
  pure := Prog.pure
  bind := Prog.bind

/-- JS `throw e`. -/
def throwJs {β : Type} (e : Thrown) : Prog β := fun s => ⟨.error e, s, []⟩

/-- JS `try { body } catch (e) { handler(e) }`. -/
def tryCatch (body : Prog Unit) (handler : Thrown → Prog Unit) : Prog Unit := fun s =>
  match body s with
  | ⟨.ok x, s1, ev1⟩ => ⟨.ok x, s1, ev1⟩
  | ⟨.error e, s1, ev1⟩ =>
    match handler e s1 with
    | ⟨r, s2, ev2⟩ => ⟨r, s2, ev1 ++ ev2⟩

/-- JS `try { body } finally { fin }`. -/
def tryFinally (body : Prog Unit) (fin : Prog Unit) : Prog Unit := fun s =>
  match body s with
  | ⟨r, s1, ev1⟩ =>
    match fin s1 with
    | ⟨.ok _, s2, ev2⟩ => ⟨r, s2, ev1 ++ ev2⟩
    | ⟨.error e, s2, ev2⟩ => ⟨.error e, s2, ev1 ++ ev2⟩

/-- JS `for (let i = start; i < start + count; i++) body(i)`. -/
def forLoop (body : Nat → Prog Unit) : Nat → Nat → Prog Unit
  | 0, _ => pure ()
  | count + 1, i => do
    body i
    forLoop body count (i + 1)

/-- Reading the current state (here: the ref `ffmpegRef.current`). -/
def getState : Prog State := fun s => ⟨.ok s, s, []⟩

/-! ### State setters -/

def setError (text : String) : Prog Unit := fun s =>
  ⟨.ok (), { s with error := text }, [.setError text]⟩

def setVideoUrl (url : String) : Prog Unit := fun s =>
  ⟨.ok (), { s with videoUrl := url }, [.setVideoUrl url]⟩

def setPercent (value : Int) : Prog Unit := fun s =>
  ⟨.ok (), { s with percent := value }, [.setPercent value]⟩

def setIsGenerating (value : Bool) : Prog Unit := fun s =>
  ⟨.ok (), { s with isGenerating := value }, [.setIsGenerating value]⟩

def setIsLoadingCore (value : Bool) : Prog Unit := fun s =>
  ⟨.ok (), { s with isLoadingCore := value }, [.setIsLoadingCore value]⟩

/-! ### Calls into the environment -/

/-- A call that changes nothing here and throws what the environment says. -/
def external (ev : Event) (fault : Option Thrown) : Prog Unit := fun s =>
  match fault with
  | some e => ⟨.error e, s, [ev]⟩
  | none => ⟨.ok (), s, [ev]⟩

/-- A method call on `ffmpegRef.current`: a `TypeError` when the ref is null,
what the environment throws when it rejects, else the engine after the call. -/
def engineCall (ev : Event) (fault : Option Thrown) (act : Engine → Except Thrown Engine) :
    Prog Unit := fun s =>
  match s.ffmpeg with
  | none => ⟨.error ⟨some "ffmpeg is null", "TypeError: ffmpeg is null"⟩, s, [ev]⟩
  | some engine =>
    match fault with
    | some e => ⟨.error e, s, [ev]⟩
    | none =>
      match act engine with
      | .error e => ⟨.error e, s, [ev]⟩
      | .ok engine1 => ⟨.ok (), { s with ffmpeg := some engine1 }, [ev]⟩

/-- The error of the engine's file system for a name that is not stored. -/
def fsError : Thrown := jsError "ErrnoError: FS error"

/-- The engine's `load`: when it resolves the engine is loaded. -/
def engineLoad (env : Env) : Prog Unit :=
  engineCall .load env.load fun engine => .ok { engine with loaded := true }

/-- The engine's `writeFile(name, data)`: when it resolves the name is stored
(a file of that name is replaced). -/
def writeFile (env : Env) (name : String) : Prog Unit :=
  engineCall (.writeFile name) (env.writeFile name) fun engine =>
    .ok { engine with files := name :: engine.files.erase name }

/-- The engine's `exec(args)`: when it resolves, `output.mp4` is stored if the
encoder produced it. -/
def exec (env : Env) (args : List String) : Prog Unit :=
  engineCall (.exec args) env.exec fun engine =>
    .ok (if env.encoded then
        { engine with files := "output.mp4" :: engine.files.erase "output.mp4" }
      else engine)

/-- The engine's `readFile(name)`: it throws for a name that is not stored. -/
def readFile (env : Env) (name : String) : Prog Unit :=
  engineCall (.readFile name) (env.readFile name) fun engine =>
    if name ∈ engine.files then .ok engine else .error fsError

/-- The engine's `deleteFile(name)`: it throws for a name that is not stored,
else the name is removed. -/
def deleteFile (env : Env) (name : String) : Prog Unit :=
  engineCall (.deleteFile name) (env.deleteFile name) fun engine =>
    if name ∈ engine.files then .ok { engine with files := engine.files.erase name }
    else .error fsError

/-- JS `Math.round` on an exact rational: the nearest integer, halves up. -/
def jsRound (x : ℚ) : Int := ⌊x + 1 / 2⌋

/-- Line 22. -/
def baseURL : String := "https://unpkg.com/@ffmpeg/core@0.12.7/dist/umd"

/-- Lines 32-44. -/
def ensureCoreLoaded (env : Env) : Prog Unit := do
  let s ← getState
  match s.ffmpeg with
  | none => throwJs (jsError "FFmpeg not initialized")
  | some engine =>
    if engine.loaded then pure ()
    else do
      setIsLoadingCore true
      tryFinally
        (do
          external (.toBlobURL (baseURL ++ "/ffmpeg-core.js") "text/javascript")
            (env.toBlobURL (baseURL ++ "/ffmpeg-core.js"))
          external (.toBlobURL (baseURL ++ "/ffmpeg-core.wasm") "application/wasm")
            (env.toBlobURL (baseURL ++ "/ffmpeg-core.wasm"))
          external (.toBlobURL (baseURL ++ "/ffmpeg-core.worker.js") "text/javascript")
            (env.toBlobURL (baseURL ++ "/ffmpeg-core.worker.js"))
          engineLoad env)
        (setIsLoadingCore false)

/-- Line 212, the argument of `setPercent`:
`Math.round(((i + 1) / FRAME_COUNT) * 40)`. -/
def stagePercent (i : Nat) : Int :=
  jsRound ((((i : ℚ) + 1) / (FRAME_COUNT : ℚ)) * 40)

/-- Lines 207-213, the body of the staging loop. -/
def stageFrame (env : Env) (i : Nat) : Prog Unit := do
  external (.drawFrame i) none
  external (.fetchFile i) (env.fetchFile i)
  let name := frameName i
  writeFile env name
  setPercent (stagePercent i)
  if i % 12 = 0 then external .yieldToEventLoop none else pure ()

/-- Lines 218-234, the argument list of `ffmpeg.exec`. -/
def execArgs : List String :=
  ["-r", jsString FPS, "-f", "image2", "-i", "frame%04d.png", "-vcodec", "libx264",
   "-pix_fmt", "yuv420p", "-preset", "veryfast", "-crf", "23", "-movflags", "+faststart",
   "output.mp4"]

/-- Lines 245-249: the deletions, each in its own `try { } catch {}`. -/
def cleanup (env : Env) : Prog Unit := do
  forLoop (fun i => tryCatch (deleteFile env (frameName i)) fun _ => pure ()) FRAME_COUNT 0
  tryCatch (deleteFile env "output.mp4") fun _ => pure ()

/-- Lines 195-249, the body of the `try` of `generate`. -/
def generateBody (env : Env) : Prog Unit := do
  ensureCoreLoaded env
  external .getContext (if env.getContext then none
    else some (jsError "Canvas 2D context not available"))
  forLoop (stageFrame env) FRAME_COUNT 0
  exec env execArgs
  setPercent 85
  readFile env "output.mp4"
  external .createObjectURL none
  setVideoUrl env.objectURL
  setPercent 100
  cleanup env

/-- Lines 189-255. -/
def generate (env : Env) : Prog Unit := do
  setError ""
  setVideoUrl ""
  setPercent 0
  setIsGenerating true
  tryFinally
    (tryCatch (generateBody env) fun e => setError (errorText e))
    (setIsGenerating false)

/-- The state of the first render: the initial values of lines 14-21. -/
def initialState : State :=
  { isLoadingCore := false, isGenerating := false, percent := 0, videoUrl := "",
    logs := [], error := "", ffmpeg := none }

/-- Lines 24-26, the mount effect: a new engine is stored in the ref. -/
def mount (s : State) : State :=
  { s with ffmpeg := some { loaded := false, files := [] } }

/-! ## The 2D canvas context and `drawFrame` (`page.js` lines 46-187) -/

/-- What the program uses of the JS number runtime besides field arithmetic
and comparison: `Math.PI`, `Math.sin`, `Math.cos`, `Math.sqrt`, and the
conversion of a number to a string in a template literal. -/
structure JsMath (α : Type) where
  PI : α
  sin : α → α
  cos : α → α
  sqrt : α → α
  toString : α → String

/-- A `CanvasGradient`: its geometry and its colour stops, in the order added. -/
inductive Gradient (α : Type) where
  | linear (x0 y0 x1 y1 : α) (stops : List (α × String))
  | radial (x0 y0 r0 x1 y1 r1 : α) (stops : List (α × String))
deriving DecidableEq, Repr

/-- JS `gradient.addColorStop(offset, color)`. -/
def Gradient.addColorStop {α : Type} (g : Gradient α) (offset : α) (color : String) :
    Gradient α :=
  match g with
  | .linear x0 y0 x1 y1 stops => .linear x0 y0 x1 y1 (stops ++ [(offset, color)])
  | .radial x0 y0 r0 x1 y1 r1 stops => .radial x0 y0 r0 x1 y1 r1 (stops ++ [(offset, color)])

/-- A value of `fillStyle` or `strokeStyle`: a CSS colour or a gradient. -/
inductive Style (α : Type) where
  | color (css : String)
  | gradient (g : Gradient α)
deriving DecidableEq, Repr

/-- The drawing state of a context, as far as `drawFrame` sets it: what
`ctx.save()` pushes and `ctx.restore()` pops. -/
structure Settings (α : Type) where
  fillStyle : Style α
  strokeStyle : Style α
  globalAlpha : α
  lineWidth : α
  shadowColor : String
  shadowBlur : α
  textAlign : String
  font : String
deriving DecidableEq, Repr

/-- A segment of the current path. -/
inductive PathSeg (α : Type) where
  | moveTo (x y : α)
  | lineTo (x y : α)
  | arc (x y radius startAngle endAngle : α)
  | ellipse (x y radiusX radiusY rotation startAngle endAngle : α)
deriving DecidableEq, Repr

/-- A method call received by the context. A call that paints (`fillRect`,
`stroke`, `fill`, `fillText`) is recorded with the settings in force, and
`stroke` and `fill` with the current path they paint. -/
inductive Instr (α : Type) where
  | createLinearGradient (x0 y0 x1 y1 : α)
  | createRadialGradient (x0 y0 r0 x1 y1 r1 : α)
  | fillRect (x y w h : α) (settings : Settings α)
  | save
  | restore
  | beginPath
  | moveTo (x y : α)
  | lineTo (x y : α)
  | arc (x y radius startAngle endAngle : α)
  | ellipse (x y radiusX radiusY rotation startAngle endAngle : α)
  | stroke (path : List (PathSeg α)) (settings : Settings α)
  | fill (path : List (PathSeg α)) (settings : Settings α)
  | fillText (text : String) (x y : α) (settings : Settings α)
deriving DecidableEq, Repr

/-- A 2D context: the settings, the stack of saved settings, the current path,
and the calls received so far, oldest first. -/
structure Ctx (α : Type) where
  settings : Settings α
  stack : List (Settings α)
  path : List (PathSeg α)
  log : List (Instr α)
deriving DecidableEq, Repr

section CanvasOps

variable {α : Type}

/-- The context of a new canvas: the default settings of the canvas API. -/
def Ctx.fresh [Zero α] [One α] : Ctx α :=
  { settings :=
      { fillStyle := .color "#000000", strokeStyle := .color "#000000", globalAlpha := 1,
        lineWidth := 1, shadowColor := "rgba(0, 0, 0, 0)", shadowBlur := 0,
        textAlign := "start", font := "10px sans-serif" },
    stack := [], path := [], log := [] }

def Ctx.emit (ctx : Ctx α) (instr : Instr α) : Ctx α :=
  { ctx with log := ctx.log ++ [instr] }

def Ctx.createLinearGradient (ctx : Ctx α) (x0 y0 x1 y1 : α) : Gradient α × Ctx α :=
  (.linear x0 y0 x1 y1 [], ctx.emit (.createLinearGradient x0 y0 x1 y1))

def Ctx.createRadialGradient (ctx : Ctx α) (x0 y0 r0 x1 y1 r1 : α) : Gradient α × Ctx α :=
  (.radial x0 y0 r0 x1 y1 r1 [], ctx.emit (.createRadialGradient x0 y0 r0 x1 y1 r1))

def Ctx.setFillStyle (ctx : Ctx α) (v : Style α) : Ctx α :=
  { ctx with settings := { ctx.settings with fillStyle := v } }

def Ctx.setStrokeStyle (ctx : Ctx α) (v : Style α) : Ctx α :=
  { ctx with settings := { ctx.settings with strokeStyle := v } }

def Ctx.setGlobalAlpha (ctx : Ctx α) (v : α) : Ctx α :=
  { ctx with settings := { ctx.settings with globalAlpha := v } }

def Ctx.setLineWidth (ctx : Ctx α) (v : α) : Ctx α :=
  { ctx with settings := { ctx.settings with lineWidth := v } }

def Ctx.setShadowColor (ctx : Ctx α) (v : String) : Ctx α :=
  { ctx with settings := { ctx.settings with shadowColor := v } }

def Ctx.setShadowBlur (ctx : Ctx α) (v : α) : Ctx α :=
  { ctx with settings := { ctx.settings with shadowBlur := v } }

def Ctx.setTextAlign (ctx : Ctx α) (v : String) : Ctx α :=
  { ctx with settings := { ctx.settings with textAlign := v } }

def Ctx.setFont (ctx : Ctx α) (v : String) : Ctx α :=
  { ctx with settings := { ctx.settings with font := v } }

/-- JS `ctx.save()`: the settings are pushed on the stack. -/
def Ctx.save (ctx : Ctx α) : Ctx α :=
  { ctx with stack := ctx.settings :: ctx.stack, log := ctx.log ++ [.save] }

/-- JS `ctx.restore()`: the settings last saved are popped and put back; with
an empty stack the call changes nothing. -/
def Ctx.restore (ctx : Ctx α) : Ctx α :=
  match ctx.stack with
  | [] => { ctx with log := ctx.log ++ [.restore] }
  | saved :: stack => { ctx with settings := saved, stack := stack, log := ctx.log ++ [.restore] }

def Ctx.beginPath (ctx : Ctx α) : Ctx α :=
  { ctx with path := [], log := ctx.log ++ [.beginPath] }

def Ctx.moveTo (ctx : Ctx α) (x y : α) : Ctx α :=
  { ctx with path := ctx.path ++ [.moveTo x y], log := ctx.log ++ [.moveTo x y] }

def Ctx.lineTo (ctx : Ctx α) (x y : α) : Ctx α :=
  { ctx with path := ctx.path ++ [.lineTo x y], log := ctx.log ++ [.lineTo x y] }

def Ctx.arc (ctx : Ctx α) (x y radius startAngle endAngle : α) : Ctx α :=
  { ctx with
    path := ctx.path ++ [.arc x y radius startAngle endAngle],
    log := ctx.log ++ [.arc x y radius startAngle endAngle] }

def Ctx.ellipse (ctx : Ctx α) (x y radiusX radiusY rotation startAngle endAngle : α) : Ctx α :=
  { ctx with
    path := ctx.path ++ [.ellipse x y radiusX radiusY rotation startAngle endAngle],
    log := ctx.log ++ [.ellipse x y radiusX radiusY rotation startAngle endAngle] }

def Ctx.stroke (ctx : Ctx α) : Ctx α :=
  ctx.emit (.stroke ctx.path ctx.settings)

def Ctx.fill (ctx : Ctx α) : Ctx α :=
  ctx.emit (.fill ctx.path ctx.settings)

def Ctx.fillRect (ctx : Ctx α) (x y w h : α) : Ctx α :=
  ctx.emit (.fillRect x y w h ctx.settings)

def Ctx.fillText (ctx : Ctx α) (text : String) (x y : α) : Ctx α :=
  ctx.emit (.fillText text x y ctx.settings)

end CanvasOps

section Loops

/-- JS `for (let x = start; x < bound; x += step) body(x)` for a positive
`step`, run from the current value `x`. -/
def forLt {α σ : Type} [LinearOrderedField α] [FloorRing α] (bound step : α)
    (hstep : 0 < step) (body : α → σ → σ) (x : α) (s : σ) : σ :=
  if x < bound then forLt bound step hstep body (x + step) (body x s) else s
termination_by ⌈(bound - x) / step⌉₊
decreasing_by
  have h1 : (bound - (x + step)) / step = (bound - x) / step - 1 := by
    rw [sub_add_eq_sub_sub, sub_div, div_self hstep.ne']
  have h2 : 0 < (bound - x) / step := div_pos (by linarith) hstep
  rw [h1]
  rcases le_or_lt ((bound - x) / step) 1 with h | h
  · have h0 : ⌈(bound - x) / step - 1⌉₊ = 0 := Nat.ceil_eq_zero.mpr (by linarith)
    rw [h0]
    exact Nat.ceil_pos.mpr h2
  · have h3 := Nat.ceil_add_one (show 0 ≤ (bound - x) / step - 1 by linarith)
    rw [sub_add_cancel] at h3
    omega

/-- JS `for (let k = start; k <= bound; k += step) body(k)` for a positive
`step`, run from the current value `k`. -/
def forLe {α σ : Type} [LinearOrderedField α] [FloorRing α] (bound step : α)
    (hstep : 0 < step) (body : α → σ → σ) (k : α) (s : σ) : σ :=
  if k ≤ bound then forLe bound step hstep body (k + step) (body k s) else s
termination_by ⌊(bound - k) / step + 1⌋₊
decreasing_by
  have h1 : (bound - (k + step)) / step + 1 = (bound - k) / step := by
    rw [sub_add_eq_sub_sub, sub_div, div_self hstep.ne', sub_add_cancel]
  have h2 : 0 ≤ (bound - k) / step := div_nonneg (by linarith) hstep.le
  rw [h1, Nat.floor_add_one h2]
  exact Nat.lt_succ_self _
end Loops

section DrawFrame

variable {α : Type} [LinearOrderedField α] [FloorRing α]

/-- Line 76, `const cx = WIDTH / 2`. -/
def cx : α := (WIDTH : α) / 2

/-- Line 77, `const cy = HEIGHT * 0.48`. -/
def cy : α := (HEIGHT : α) * 0.48

/-- Line 78, `const r = Math.min(WIDTH, HEIGHT) * 0.32`. -/
def r : α := min (WIDTH : α) (HEIGHT : α) * 0.32

/-- Line 79, `const rotation = t * Math.PI * 0.8`. -/
def rotation (M : JsMath α) (t : α) : α := t * M.PI * 0.8

/-- Line 111, the latitude of ring `i`. -/
def latitude (M : JsMath α) (i : α) : α := (i / 8) * M.PI - M.PI / 2

/-- Line 112, `const ry = r * Math.cos(lat)`. -/
def ringRy (M : JsMath α) (lat : α) : α := r * M.cos lat

/-- Line 125, the argument of `Math.sqrt`: `Math.max(0, r * r - k * k)`. -/
def sqrtArg (k : α) : α := max 0 (r * r - k * k)

/-- Line 125, `const x = cx + Math.sqrt(Math.max(0, r * r - k * k)) * cos`. -/
def meridianX (M : JsMath α) (cos k : α) : α := cx + M.sqrt (sqrtArg k) * cos

/-- Line 141, `const size = 2 + 1.5 * Math.sin(a * 3 + t * 5)`. -/
def nodeSize (M : JsMath α) (a t : α) : α := 2 + 1.5 * M.sin (a * 3 + t * 5)

/-- Lines 49-53, the background gradient. -/
def drawBackground (ctx : Ctx α) : Ctx α :=
  let (g, ctx) := ctx.createLinearGradient 0 0 0 (HEIGHT : α)
  let g := g.addColorStop 0 "#0a0f1f"
  let g := g.addColorStop 1 "#020409"
  let ctx := ctx.setFillStyle (.gradient g)
  ctx.fillRect 0 0 (WIDTH : α) (HEIGHT : α)

/-- Lines 56-73, the grid. -/
def drawGrid (ctx : Ctx α) : Ctx α :=
  let ctx := ctx.save
  let ctx := ctx.setGlobalAlpha 0.12
  let ctx := ctx.setStrokeStyle (.color "#1c2a4a")
  let ctx := ctx.setLineWidth 1
  let ctx := forLt (WIDTH : α) 32 (by norm_num) (fun x ctx =>
    let ctx := ctx.beginPath
    let ctx := ctx.moveTo x 0
    let ctx := ctx.lineTo x (HEIGHT : α)
    ctx.stroke) 0 ctx
  let ctx := forLt (HEIGHT : α) 32 (by norm_num) (fun y ctx =>
    let ctx := ctx.beginPath
    let ctx := ctx.moveTo 0 y
    let ctx := ctx.lineTo (WIDTH : α) y
    ctx.stroke) 0 ctx
  ctx.restore

/-- Lines 82-90, the outer glow. -/
def drawGlow (M : JsMath α) (ctx : Ctx α) : Ctx α :=
  let ctx := ctx.save
  let (glow, ctx) := ctx.createRadialGradient cx cy (r * 0.4) cx cy (r * 1.1)
  let glow := glow.addColorStop 0 "rgba(14, 165, 233, 0.1)"
  let glow := glow.addColorStop 1 "rgba(14, 165, 233, 0)"
  let ctx := ctx.setFillStyle (.gradient glow)
  let ctx := ctx.beginPath
  let ctx := ctx.arc cx cy (r * 1.1) 0 (M.PI * 2)
  let ctx := ctx.fill
  ctx.restore

/-- Lines 93-101, the sphere outline. -/
def drawSphere (M : JsMath α) (ctx : Ctx α) : Ctx α :=
  let ctx := ctx.save
  let ctx := ctx.setStrokeStyle (.color "#0ea5e9")
  let ctx := ctx.setLineWidth 2
  let ctx := ctx.setShadowColor "#06b6d4"
  let ctx := ctx.setShadowBlur 20
  let ctx := ctx.beginPath
  let ctx := ctx.arc cx cy r 0 (M.PI * 2)
  let ctx := ctx.stroke
  ctx.restore

/-- Lines 104-131, the latitude rings and the rotating meridians. -/
def drawLatLon (M : JsMath α) (t : α) (ctx : Ctx α) : Ctx α :=
  let ctx := ctx.save
  let ctx := ctx.setStrokeStyle (.color "rgba(56, 189, 248, 0.7)")
  let ctx := ctx.setLineWidth 1.2
  let ctx := forLt (8 : α) 1 (by norm_num) (fun i ctx =>
    let lat := latitude M i
    let ry := ringRy M lat
    let y := cy + r * M.sin lat
    let ctx := ctx.beginPath
    let ctx := ctx.ellipse cx y r (max ry 0) 0 0 (M.PI * 2)
    ctx.stroke) 1 ctx
  let ctx := forLt (14 : α) 1 (by norm_num) (fun j ctx =>
    let lon := (j / 14) * M.PI * 2 + rotation M t
    let cos := M.cos lon
    let ctx := ctx.beginPath
    let ctx := forLe (r : α) 2 (by norm_num) (fun k ctx =>
      let y := cy + k
      let x := meridianX M cos k
      if k = -r then ctx.moveTo x y else ctx.lineTo x y) (-r) ctx
    ctx.stroke) 0 ctx
  ctx.restore

/-- Lines 134-148, the orbiting nodes. -/
def drawNodes (M : JsMath α) (t : α) (ctx : Ctx α) : Ctx α :=
  let ctx := ctx.save
  let ctx := forLt (90 : α) 1 (by norm_num) (fun n ctx =>
    let a := (n / 90) * M.PI * 2 + rotation M t * 1.6
    let rr := r * (0.85 + 0.1 * M.sin (n * 0.7 + t * 2))
    let x := cx + rr * M.cos a
    let y := cy + rr * M.sin a * 0.6
    let size := nodeSize M a t
    let ctx := ctx.setFillStyle (.color "#22d3ee")
    let ctx := ctx.setGlobalAlpha 0.8
    let ctx := ctx.beginPath
    let ctx := ctx.arc x y size 0 (M.PI * 2)
    ctx.fill) 0 ctx
  ctx.restore

/-- Lines 151-165, the radiating circuit lines. -/
def drawCircuit (M : JsMath α) (t : α) (ctx : Ctx α) : Ctx α :=
  let ctx := ctx.save
  let ctx := ctx.setGlobalAlpha 0.25
  let ctx := ctx.setStrokeStyle (.color "#60a5fa")
  let ctx := forLt (30 : α) 1 (by norm_num) (fun i ctx =>
    let ang := (i / 30) * M.PI * 2 + rotation M t * 0.5
    let x1 := cx + r * M.cos ang
    let y1 := cy + r * M.sin ang
    let x2 := cx + (r + 120 + 40 * M.sin (t * 2 + i)) * M.cos ang
    let y2 := cy + (r + 120 + 40 * M.sin (t * 2 + i)) * M.sin ang
    let ctx := ctx.beginPath
    let ctx := ctx.moveTo x1 y1
    let ctx := ctx.lineTo x2 y2
    ctx.stroke) 0 ctx
  ctx.restore

/-- Lines 168-176, the two title lines. -/
def drawTitle (ctx : Ctx α) : Ctx α :=
  let ctx := ctx.save
  let ctx := ctx.setTextAlign "center"
  let ctx := ctx.setFillStyle (.color "#e2e8f0")
  let ctx := ctx.setFont "800 54px system-ui, -apple-system, Segoe UI, Roboto"
  let ctx := ctx.fillText "AI COVERS THE WORLD" ((WIDTH : α) / 2) ((HEIGHT : α) * 0.1)
  let ctx := ctx.setFont "600 22px system-ui, -apple-system, Segoe UI, Roboto"
  let ctx := ctx.setFillStyle (.color "#93c5fd")
  let ctx := ctx.fillText "Instagram Reel ? 720?1280 ? 5s ? 24fps" ((WIDTH : α) / 2)
    ((HEIGHT : α) * 0.14)
  ctx.restore

/-- Lines 179-186, the pulsing footer. -/
def drawFooter (M : JsMath α) (t : α) (ctx : Ctx α) : Ctx α :=
  let ctx := ctx.save
  let ctx := ctx.setGlobalAlpha 0.8
  let ctx := ctx.setTextAlign "center"
  let ctx := ctx.setFont "700 26px system-ui, -apple-system, Segoe UI, Roboto"
  let pulse := 0.5 + 0.5 * M.sin (t * 6)
  let ctx := ctx.setFillStyle
    (.color ("rgba(34, 211, 238, " ++ M.toString (0.6 + pulse * 0.3) ++ ")"))
  let ctx := ctx.fillText "The AI era is global." ((WIDTH : α) / 2) ((HEIGHT : α) * 0.9)
  ctx.restore

/-- Lines 46-187: `drawFrame(ctx, frameIndex)`, the ten layers in order. -/
def drawFrame (M : JsMath α) (ctx : Ctx α) (frameIndex : α) : Ctx α :=
  let t := frameTime frameIndex
  let ctx := drawBackground ctx
  let ctx := drawGrid ctx
  let ctx := drawGlow M ctx
  let ctx := drawSphere M ctx
  let ctx := drawLatLon M t ctx
  let ctx := drawNodes M t ctx
  let ctx := drawCircuit M t ctx
  let ctx := drawTitle ctx
  drawFooter M t ctx

end DrawFrame

/-! ## Vocabulary for the statements -/

/-- The events of `p` are an initial part of `L`, and all of `L` when `p`
completes normally. -/
def Nominal (p : Prog Unit) (L : List Event) : Prop :=
  ∀ s, (p s).events <+: L ∧ ((p s).result = .ok () → (p s).events = L)

/-- The program `p` never changes the component `f` of the state. -/
def Preserves {β δ : Type} (f : State → δ) (p : Prog β) : Prop :=
  ∀ s, f (p s).state = f s

/-- The program `p` never throws. -/
def NeverThrows (p : Prog Unit) : Prop := ∀ s, (p s).result = .ok ()

/-- When `p` completes normally the component `f` of the state is `v`. -/
def Ends {δ : Type} (f : State → δ) (v : δ) (p : Prog Unit) : Prop :=
  ∀ s, (p s).result = .ok () → f (p s).state = v

/-- The state after lines 190-193, where the `try` of `generate` starts. -/
def generateStart (s : State) : State :=
  { s with error := "", videoUrl := "", percent := 0, isGenerating := true }

/-- The values passed to `setPercent`, in order. -/
def percents (evs : List Event) : List Int :=
  evs.filterMap fun ev => match ev with
    | .setPercent v => some v
    | _ => none

/-- The names passed to `ffmpeg.writeFile`, in order. -/
def writes (evs : List Event) : List String :=
  evs.filterMap fun ev => match ev with
    | .writeFile name => some name
    | _ => none

/-- The argument lists passed to `ffmpeg.exec`, in order. -/
def execs (evs : List Event) : List (List String) :=
  evs.filterMap fun ev => match ev with
    | .exec args => some args
    | _ => none

/-- The names passed to `ffmpeg.readFile`, in order. -/
def reads (evs : List Event) : List String :=
  evs.filterMap fun ev => match ev with
    | .readFile name => some name
    | _ => none

/-- The names passed to `ffmpeg.deleteFile`, in order. -/
def deletes (evs : List Event) : List String :=
  evs.filterMap fun ev => match ev with
    | .deleteFile name => some name
    | _ => none

/-- The frame indices passed to `drawFrame`, in order. -/
def draws (evs : List Event) : List Nat :=
  evs.filterMap fun ev => match ev with
    | .drawFrame i => some i
    | _ => none

/-- The texts passed to `setError`, in order. -/
def errors (evs : List Event) : List String :=
  evs.filterMap fun ev => match ev with
    | .setError text => some text
    | _ => none

/-- The events of one iteration of the staging loop that completes. -/
def stageEvents (i : Nat) : List Event :=
  [.drawFrame i, .fetchFile i, .writeFile (frameName i), .setPercent (stagePercent i)] ++
    (if i % 12 = 0 then [.yieldToEventLoop] else [])

/-- The events of the cleanup of lines 245-249. -/
def cleanupEvents : List Event :=
  (List.range' 0 FRAME_COUNT).flatMap (fun i => [Event.deleteFile (frameName i)]) ++
    [.deleteFile "output.mp4"]

/-- The events of lines 199-241 when every step completes. -/
def encodeEvents (env : Env) : List Event :=
  [.getContext] ++ ((List.range' 0 FRAME_COUNT).flatMap stageEvents ++
    ([.exec execArgs] ++ ([.setPercent 85] ++ ([.readFile "output.mp4"] ++
      ([.createObjectURL] ++ [.setVideoUrl env.objectURL])))))

/-- The events of lines 242-249. -/
def finishEvents : List Event := [.setPercent 100] ++ cleanupEvents

/-- Lines 199-241 of `generateBody`, from the canvas to `setVideoUrl(url)`
(`generateBody` is `ensureCoreLoaded`, then this, then `finishPart`). -/
def encodePart (env : Env) : Prog Unit := do
  external .getContext (if env.getContext then none
    else some (jsError "Canvas 2D context not available"))
  forLoop (stageFrame env) FRAME_COUNT 0
  exec env execArgs
  setPercent 85
  readFile env "output.mp4"
  external .createObjectURL none
  setVideoUrl env.objectURL

/-- Lines 242-249 of `generateBody`: `setPercent(100)` and the cleanup. -/
def finishPart (env : Env) : Prog Unit := do
  setPercent 100
  cleanup env

/-- An event of `ensureCoreLoaded`. -/
def Event.isLoad : Event → Bool
  | .setIsLoadingCore _ => true
  | .toBlobURL _ _ => true
  | .load => true
  | _ => false

/-- The component as it can be found when `generate` is invoked: freshly
rendered, after the mount effect, after a log message, or after an earlier
run of `generate` in any environment. -/
inductive Reachable : State → Prop where
  | initial : Reachable initialState
  | mount {s : State} : Reachable s → Reachable (mount s)
  | log {s : State} (message : String) :
      Reachable s → Reachable { s with logs := onLog s.logs message }
  | generate {s : State} (env : Env) : Reachable s → Reachable (generate env s).state

/-- The engine resources are fetched and the engine loads. -/
def LoadsOk (env : Env) : Prop :=
  (∀ url, env.toBlobURL url = none) ∧ env.load = none

/-- The canvas is available and every frame is exported and written. -/
def StagesOk (env : Env) : Prop :=
  env.getContext = true ∧ (∀ i, env.fetchFile i = none) ∧ (∀ name, env.writeFile name = none)

/-- An environment in which nothing fails. -/
def okEnv : Env :=
  { toBlobURL := fun _ => none, load := none, getContext := true, fetchFile := fun _ => none,
    writeFile := fun _ => none, exec := none, encoded := true, readFile := fun _ => none,
    objectURL := "blob:reel", deleteFile := fun _ => none }

/-- An environment in which the encoder throws: everything up to `exec`
succeeds and `ffmpeg.exec` rejects. -/
def execThrowsEnv : Env :=
  { okEnv with exec := some (jsError "encode failed") }

/-- An environment in which the network is down: no engine resource can be
fetched. -/
def offlineEnv : Env :=
  { okEnv with toBlobURL := fun _ => some (jsError "Failed to fetch") }

/-- An environment in which every deletion throws and nothing else fails. -/
def noDeleteEnv : Env :=
  { okEnv with deleteFile := fun _ => some (jsError "busy") }

section CanvasVocabulary

variable {α : Type}

/-- The nesting depth of `save`/`restore` after the calls `instrs`, started at
depth `d`; `none` when a `restore` arrives at depth 0, with nothing saved. -/
def saveDepth : List (Instr α) → Nat → Option Nat
  | [], d => some d
  | .save :: rest, d => saveDepth rest (d + 1)
  | .restore :: rest, d =>
    match d with
    | 0 => none
    | d + 1 => saveDepth rest d
  | _ :: rest, d => saveDepth rest d

/-- Two contexts that run the same calls in step: their settings agree, each
has the settings `P` saved since the start on top of its own stack (`S`, `S'`),
each log is its own start (`L`, `L'`) followed by the same calls `N`, whose
`save`/`restore` nesting is well formed with depth `P.length`; when `strong`,
the current paths agree too. -/
structure Sim (S S' : List (Settings α)) (L L' : List (Instr α)) (strong : Bool)
    (P : List (Settings α)) (c c' : Ctx α) : Prop where
  settings : c.settings = c'.settings
  stack : c.stack = P ++ S
  stack' : c'.stack = P ++ S'
  log : ∃ N, c.log = L ++ N ∧ c'.log = L' ++ N ∧ saveDepth N 0 = some P.length
  path : strong = true → c.path = c'.path

/-- No radius passed by the call is negative. -/
def Instr.radiiOk [LE α] [Zero α] : Instr α → Prop
  | .createRadialGradient _ _ r0 _ _ r1 => 0 ≤ r0 ∧ 0 ≤ r1
  | .arc _ _ radius _ _ => 0 ≤ radius
  | .ellipse _ _ radiusX radiusY _ _ _ => 0 ≤ radiusX ∧ 0 ≤ radiusY
  | _ => True

/-- The style the background layer leaves in `fillStyle` (lines 49-52). -/
def backgroundStyle [NatCast α] [Zero α] [One α] : Style α :=
  .gradient (.linear 0 0 0 (HEIGHT : α) [(0, "#0a0f1f"), (1, "#020409")])

end CanvasVocabulary

section CanvasVocabulary2

variable {α : Type}

/-- Two settings agree on everything but `fillStyle`. -/
def Settings.sameButFill (a b : Settings α) : Prop :=
  a.strokeStyle = b.strokeStyle ∧ a.globalAlpha = b.globalAlpha ∧ a.lineWidth = b.lineWidth ∧
  a.shadowColor = b.shadowColor ∧ a.shadowBlur = b.shadowBlur ∧ a.textAlign = b.textAlign ∧
  a.font = b.font

/-- No call received by the context so far was passed a negative radius. -/
def Safe [LE α] [Zero α] (c : Ctx α) : Prop :=
  ∀ instr ∈ c.log, instr.radiiOk

end CanvasVocabulary2

/-! ## Lemmas: sequencing, exceptions and loops -/

section Toolkit

variable {β γ : Type}

theorem bind_of_ok (m : Prog β) (f : β → Prog γ) (s : State) (x : β)
    (h : (m s).result = .ok x) :
    (m >>= f) s = ⟨(f x (m s).state).result, (f x (m s).state).state,
      (m s).events ++ (f x (m s).state).events⟩ := by
  show Prog.bind m f s = _
  unfold Prog.bind
  rcases hm : m s with ⟨r, s1, ev1⟩
  rw [hm] at h
  simp only at h
  subst h
  rfl

theorem bind_of_error (m : Prog β) (f : β → Prog γ) (s : State) (e : Thrown)
    (h : (m s).result = .error e) :
    (m >>= f) s = ⟨.error e, (m s).state, (m s).events⟩ := by
  show Prog.bind m f s = _
  unfold Prog.bind
  rcases hm : m s with ⟨r, s1, ev1⟩
  rw [hm] at h
  simp only at h
  subst h
  rfl

theorem pure_apply (x : β) (s : State) : (pure x : Prog β) s = ⟨.ok x, s, []⟩ := rfl

theorem result_cases (r : Except Thrown Unit) : r = .ok () ∨ ∃ e, r = .error e := by
  cases r with
  | ok x => exact Or.inl rfl
  | error e => exact Or.inr ⟨e, rfl⟩

theorem tryCatch_of_ok (body : Prog Unit) (handler : Thrown → Prog Unit) (s : State)
    (h : (body s).result = .ok ()) : tryCatch body handler s = body s := by
  unfold tryCatch
  rcases hm : body s with ⟨r, s1, ev1⟩
  rw [hm] at h
  simp only at h
  subst h
  rfl

theorem tryCatch_of_error (body : Prog Unit) (handler : Thrown → Prog Unit) (s : State)
    (e : Thrown) (h : (body s).result = .error e) :
    tryCatch body handler s = ⟨(handler e (body s).state).result,
      (handler e (body s).state).state,
      (body s).events ++ (handler e (body s).state).events⟩ := by
  unfold tryCatch
  rcases hm : body s with ⟨r, s1, ev1⟩
  rw [hm] at h
  simp only at h
  subst h
  rfl

theorem tryFinally_of_ok (body fin : Prog Unit) (s : State)
    (h : (fin (body s).state).result = .ok ()) :
    tryFinally body fin s = ⟨(body s).result, (fin (body s).state).state,
      (body s).events ++ (fin (body s).state).events⟩ := by
  unfold tryFinally
  rcases hm : body s with ⟨r, s1, ev1⟩
  rw [hm] at h
  simp only at h ⊢
  rcases hf : fin s1 with ⟨r2, s2, ev2⟩
  rw [hf] at h
  simp only at h ⊢
  subst h
  rfl

theorem nominal_bind {p q : Prog Unit} {A B : List Event} (hp : Nominal p A)
    (hq : Nominal q B) : Nominal (p >>= fun _ => q) (A ++ B) := by
  intro s
  rcases result_cases (p s).result with h | ⟨e, h⟩
  · rw [bind_of_ok p _ s () h]
    simp only
    rw [(hp s).2 h]
    exact ⟨List.prefix_append_right_inj A |>.mpr (hq _).1,
      fun hr => by rw [(hq _).2 hr]⟩
  · rw [bind_of_error p _ s e h]
    simp only
    exact ⟨(hp s).1.trans (List.prefix_append A B), fun hr => by cases hr⟩

theorem nominal_forLoop {body : Nat → Prog Unit} {L : Nat → List Event}
    (h : ∀ k, Nominal (body k) (L k)) (n i : Nat) :
    Nominal (forLoop body n i) ((List.range' i n).flatMap L) := by
  induction n generalizing i with
  | zero =>
    intro s
    simp [forLoop, pure_apply]
  | succ n ih =>
    have := nominal_bind (h i) (ih (i + 1))
    simpa [forLoop, List.range'_succ] using this

theorem nominal_ite {c : Prop} [Decidable c] {p q : Prog Unit} {A B : List Event}
    (hp : Nominal p A) (hq : Nominal q B) :
    Nominal (if c then p else q) (if c then A else B) := by
  split
  · exact hp
  · exact hq

theorem nominal_pure : Nominal (pure ()) [] := by
  intro s
  simp [pure_apply]

theorem nominal_external (ev : Event) (fault : Option Thrown) :
    Nominal (external ev fault) [ev] := by
  intro s
  cases fault <;> simp [external]

theorem nominal_engineCall (ev : Event) (fault : Option Thrown)
    (act : Engine → Except Thrown Engine) : Nominal (engineCall ev fault act) [ev] := by
  intro s
  unfold engineCall
  split
  · simp
  · split
    · simp
    · split <;> simp

theorem nominal_setPercent (v : Int) : Nominal (setPercent v) [.setPercent v] := by
  intro s
  simp [setPercent]

theorem nominal_setVideoUrl (u : String) : Nominal (setVideoUrl u) [.setVideoUrl u] := by
  intro s
  simp [setVideoUrl]

/-- A deletion wrapped in `try { } catch {}` always completes, with the one
event of the call. -/
theorem tryDelete_apply (env : Env) (name : String) (s : State) :
    (tryCatch (deleteFile env name) fun _ => pure ()) s =
      ⟨.ok (), (deleteFile env name s).state, [.deleteFile name]⟩ := by
  have hev : (deleteFile env name s).events = [.deleteFile name] := by
    unfold deleteFile engineCall
    split
    · rfl
    · split
      · rfl
      · split <;> rfl
  rcases result_cases (deleteFile env name s).result with h | ⟨e, h⟩
  · rw [tryCatch_of_ok _ _ _ h]
    rw [← hev, ← h]
  · rw [tryCatch_of_error _ _ _ e h]
    simp [pure_apply, hev]

theorem neverThrows_bind {p q : Prog Unit} (hp : NeverThrows p) (hq : NeverThrows q) :
    NeverThrows (p >>= fun _ => q) := by
  intro s
  rw [bind_of_ok p _ s () (hp s)]
  exact hq _

theorem neverThrows_forLoop {body : Nat → Prog Unit} (h : ∀ k, NeverThrows (body k))
    (n i : Nat) : NeverThrows (forLoop body n i) := by
  induction n generalizing i with
  | zero => intro s; rfl
  | succ n ih => exact neverThrows_bind (h i) (ih (i + 1))

theorem preserves_bind {δ : Type} {f : State → δ} {p : Prog β} {q : β → Prog γ}
    (hp : Preserves f p) (hq : ∀ x, Preserves f (q x)) : Preserves f (p >>= q) := by
  intro s
  cases h : (p s).result with
  | ok x =>
    rw [bind_of_ok p q s x h]
    simp only
    rw [hq x, hp]
  | error e =>
    rw [bind_of_error p q s e h]
    exact hp s

theorem preserves_forLoop {δ : Type} {f : State → δ} {body : Nat → Prog Unit}
    (h : ∀ k, Preserves f (body k)) (n i : Nat) : Preserves f (forLoop body n i) := by
  induction n generalizing i with
  | zero => intro s; rfl
  | succ n ih => exact preserves_bind (h i) (fun _ => ih (i + 1))

theorem preserves_ite {δ : Type} {f : State → δ} {c : Prop} [Decidable c] {p q : Prog β}
    (hp : Preserves f p) (hq : Preserves f q) : Preserves f (if c then p else q) := by
  split
  · exact hp
  · exact hq

theorem preserves_pure {δ : Type} (f : State → δ) (x : β) : Preserves f (pure x : Prog β) :=
  fun _ => rfl

theorem preserves_external {δ : Type} (f : State → δ) (ev : Event) (fault : Option Thrown) :
    Preserves f (external ev fault) := by
  intro s
  cases fault <;> rfl

theorem preserves_tryCatch {δ : Type} {f : State → δ} {body : Prog Unit}
    {handler : Thrown → Prog Unit} (hb : Preserves f body) (hh : ∀ e, Preserves f (handler e)) :
    Preserves f (tryCatch body handler) := by
  intro s
  rcases result_cases (body s).result with h | ⟨e, h⟩
  · rw [tryCatch_of_ok _ _ _ h]
    exact hb s
  · rw [tryCatch_of_error _ _ _ e h]
    simp only
    rw [hh e, hb]

/-- An engine call changes at most the engine. -/
theorem preserves_engineCall {δ : Type} (f : State → δ)
    (hf : ∀ s engine, f { s with ffmpeg := engine } = f s) (ev : Event)
    (fault : Option Thrown) (act : Engine → Except Thrown Engine) :
    Preserves f (engineCall ev fault act) := by
  intro s
  unfold engineCall
  split
  · rfl
  · split
    · rfl
    · split
      · rfl
      · exact hf _ _

end Toolkit

/-! ## Lemmas: the shape of `generate` -/

theorem bind_assoc_prog {β γ δ : Type} (m : Prog β) (f : β → Prog γ) (g : γ → Prog δ) :
    (m >>= f) >>= g = m >>= fun x => f x >>= g := by
  funext s
  cases h : (m s).result with
  | error e =>
    rw [bind_of_error (m >>= f) g s e (by rw [bind_of_error m f s e h]),
      bind_of_error m f s e h, bind_of_error m _ s e h]
  | ok x =>
    rw [bind_of_ok m _ s x h]
    cases h2 : (f x (m s).state).result with
    | error e =>
      have h3 : ((m >>= f) s).result = .error e := by rw [bind_of_ok m f s x h]; exact h2
      rw [bind_of_error _ g s e h3, bind_of_ok m f s x h, bind_of_error _ g _ e h2]
    | ok y =>
      have h3 : ((m >>= f) s).result = .ok y := by rw [bind_of_ok m f s x h]; exact h2
      rw [bind_of_ok _ g s y h3, bind_of_ok m f s x h, bind_of_ok _ g _ y h2]
      simp

theorem generateBody_eq (env : Env) :
    generateBody env =
      ensureCoreLoaded env >>= fun _ => (encodePart env >>= fun _ => finishPart env) := by
  simp only [generateBody, encodePart, finishPart, bind_assoc_prog]

theorem generate_eq (env : Env) (s : State) :
    generate env s =
      match (generateBody env (generateStart s)).result with
      | .ok _ =>
        ⟨.ok (), { (generateBody env (generateStart s)).state with isGenerating := false },
          [.setError "", .setVideoUrl "", .setPercent 0, .setIsGenerating true] ++
            (generateBody env (generateStart s)).events ++ [.setIsGenerating false]⟩
      | .error e =>
        ⟨.ok (), { (generateBody env (generateStart s)).state with
            error := errorText e, isGenerating := false },
          [.setError "", .setVideoUrl "", .setPercent 0, .setIsGenerating true] ++
            (generateBody env (generateStart s)).events ++
            [.setError (errorText e), .setIsGenerating false]⟩ := by
  unfold generate
  rw [bind_of_ok _ _ s () rfl, bind_of_ok _ _ _ () rfl, bind_of_ok _ _ _ () rfl,
    bind_of_ok _ _ _ () rfl]
  rw [tryFinally_of_ok _ _ _ rfl]
  rcases result_cases (generateBody env (generateStart s)).result with h | ⟨e, h⟩
  · have hs : (setIsGenerating true (setPercent 0 (setVideoUrl "" (setError "" s).state).state).state).state
        = generateStart s := rfl
    rw [hs, tryCatch_of_ok _ _ _ h, h]
    simp [setError, setVideoUrl, setPercent, setIsGenerating]
  · have hs : (setIsGenerating true (setPercent 0 (setVideoUrl "" (setError "" s).state).state).state).state
        = generateStart s := rfl
    rw [hs, tryCatch_of_error _ _ _ e h, h]
    simp [setError, setVideoUrl, setPercent, setIsGenerating]

theorem nominal_stageFrame (env : Env) (i : Nat) :
    Nominal (stageFrame env i) (stageEvents i) := by
  have h := nominal_bind (nominal_external (.drawFrame i) none)
    (nominal_bind (nominal_external (.fetchFile i) (env.fetchFile i))
      (nominal_bind (nominal_engineCall (.writeFile (frameName i)) (env.writeFile (frameName i))
          fun engine => .ok { engine with files := frameName i :: engine.files.erase (frameName i) })
        (nominal_bind (nominal_setPercent (stagePercent i))
          (nominal_ite (c := i % 12 = 0) (nominal_external .yieldToEventLoop none)
            nominal_pure))))
  exact h

theorem nominal_encodePart (env : Env) : Nominal (encodePart env) (encodeEvents env) :=
  nominal_bind (nominal_external _ _) (nominal_bind
    (nominal_forLoop (nominal_stageFrame env) _ _)
    (nominal_bind (nominal_engineCall _ _ _) (nominal_bind (nominal_setPercent _)
      (nominal_bind (nominal_engineCall _ _ _) (nominal_bind (nominal_external _ _)
        (nominal_setVideoUrl _))))))

theorem nominal_tryDelete (env : Env) (name : String) :
    Nominal (tryCatch (deleteFile env name) fun _ => pure ()) [.deleteFile name] := by
  intro s
  rw [tryDelete_apply]
  simp

theorem neverThrows_tryDelete (env : Env) (name : String) :
    NeverThrows (tryCatch (deleteFile env name) fun _ => pure ()) := by
  intro s
  rw [tryDelete_apply]

theorem nominal_cleanup (env : Env) : Nominal (cleanup env) cleanupEvents :=
  nominal_bind (nominal_forLoop (fun i => nominal_tryDelete env (frameName i)) _ _)
    (nominal_tryDelete env _)

theorem neverThrows_cleanup (env : Env) : NeverThrows (cleanup env) :=
  neverThrows_bind (neverThrows_forLoop (fun i => neverThrows_tryDelete env (frameName i)) _ _)
    (neverThrows_tryDelete env _)

theorem neverThrows_finishPart (env : Env) : NeverThrows (finishPart env) :=
  neverThrows_bind (fun _ => rfl) (neverThrows_cleanup env)

theorem nominal_finishPart (env : Env) : Nominal (finishPart env) finishEvents :=
  nominal_bind (nominal_setPercent _) (nominal_cleanup env)

/-- The cleanup always runs to its end: its events are the 121 deletions. -/
theorem cleanup_events (env : Env) (s : State) : (cleanup env s).events = cleanupEvents :=
  (nominal_cleanup env s).2 (neverThrows_cleanup env s)

theorem finishPart_events (env : Env) (s : State) :
    (finishPart env s).events = finishEvents :=
  (nominal_finishPart env s).2 (neverThrows_finishPart env s)

theorem ensureCoreLoaded_facts (env : Env) (s : State) :
    (∀ ev ∈ (ensureCoreLoaded env s).events, ev.isLoad = true) ∧
    (ensureCoreLoaded env s).state.percent = s.percent ∧
    (ensureCoreLoaded env s).state.error = s.error ∧
    (ensureCoreLoaded env s).state.videoUrl = s.videoUrl ∧
    (ensureCoreLoaded env s).state.isGenerating = s.isGenerating ∧
    (ensureCoreLoaded env s).state.logs = s.logs ∧
    (s.isLoadingCore = false → (ensureCoreLoaded env s).state.isLoadingCore = false) ∧
    (∀ e, (ensureCoreLoaded env s).result = .error e →
      (ensureCoreLoaded env s).state.ffmpeg = s.ffmpeg ∧
      ∀ engine, s.ffmpeg = some engine → engine.loaded = false) ∧
    ((ensureCoreLoaded env s).result = .ok () →
      ∃ engine0 engine, s.ffmpeg = some engine0 ∧
        (ensureCoreLoaded env s).state.ffmpeg = some engine ∧ engine.loaded = true ∧
        engine.files = engine0.files) := by
  unfold ensureCoreLoaded
  rw [bind_of_ok getState _ s s rfl]
  simp only [getState]
  cases hf : s.ffmpeg with
  | none => simp [throwJs, hf]
  | some engine =>
    cases hl : engine.loaded with
    | true => simp [pure_apply, hf, hl]
    | false =>
      simp only [hl, Bool.false_eq_true, ↓reduceIte, List.nil_append]
      rw [bind_of_ok _ _ s () rfl]
      cases h1 : env.toBlobURL (baseURL ++ "/ffmpeg-core.js") <;>
      cases h2 : env.toBlobURL (baseURL ++ "/ffmpeg-core.wasm") <;>
      cases h3 : env.toBlobURL (baseURL ++ "/ffmpeg-core.worker.js") <;>
      cases h4 : env.load <;>
      simp [tryFinally, bind, Prog.bind, external, engineLoad, engineCall, setIsLoadingCore,
        h1, h2, h3, h4, hf, hl, Event.isLoad]

/-- The three ways a run of `generate` can go: the engine fails to load, a step
from the canvas to `setVideoUrl` throws, or everything completes. -/
theorem generate_cases (env : Env) (s : State) :
    (∃ e, (ensureCoreLoaded env (generateStart s)).result = .error e ∧
      (generateBody env (generateStart s)).result = .error e ∧
      generate env s =
        ⟨.ok (), { (ensureCoreLoaded env (generateStart s)).state with
            error := errorText e, isGenerating := false },
          [.setError "", .setVideoUrl "", .setPercent 0, .setIsGenerating true] ++
            (ensureCoreLoaded env (generateStart s)).events ++
            [.setError (errorText e), .setIsGenerating false]⟩) ∨
    (∃ e, (ensureCoreLoaded env (generateStart s)).result = .ok () ∧
      (encodePart env (ensureCoreLoaded env (generateStart s)).state).result = .error e ∧
      (generateBody env (generateStart s)).result = .error e ∧
      generate env s =
        ⟨.ok (), { (encodePart env (ensureCoreLoaded env (generateStart s)).state).state with
            error := errorText e, isGenerating := false },
          [.setError "", .setVideoUrl "", .setPercent 0, .setIsGenerating true] ++
            ((ensureCoreLoaded env (generateStart s)).events ++
              (encodePart env (ensureCoreLoaded env (generateStart s)).state).events) ++
            [.setError (errorText e), .setIsGenerating false]⟩) ∨
    ((ensureCoreLoaded env (generateStart s)).result = .ok () ∧
      (encodePart env (ensureCoreLoaded env (generateStart s)).state).result = .ok () ∧
      (generateBody env (generateStart s)).result = .ok () ∧
      generate env s =
        ⟨.ok (), { (finishPart env
            (encodePart env (ensureCoreLoaded env (generateStart s)).state).state).state with
            isGenerating := false },
          [.setError "", .setVideoUrl "", .setPercent 0, .setIsGenerating true] ++
            ((ensureCoreLoaded env (generateStart s)).events ++
              (encodeEvents env ++ finishEvents)) ++
            [.setIsGenerating false]⟩) := by
  rw [generate_eq, generateBody_eq]
  rcases result_cases (ensureCoreLoaded env (generateStart s)).result with h1 | ⟨e, h1⟩
  · rw [bind_of_ok _ _ _ () h1]
    rcases result_cases
      (encodePart env (ensureCoreLoaded env (generateStart s)).state).result with h2 | ⟨e, h2⟩
    · right; right
      rw [bind_of_ok _ _ _ () h2]
      have h3 := neverThrows_finishPart env
        (encodePart env (ensureCoreLoaded env (generateStart s)).state).state
      have h4 := (nominal_encodePart env (ensureCoreLoaded env (generateStart s)).state).2 h2
      refine ⟨h1, h2, h3, ?_⟩
      simp only [h3, h4, finishPart_events]
    · right; left
      rw [bind_of_error _ _ _ e h2]
      exact ⟨e, h1, h2, rfl, rfl⟩
  · left
    rw [bind_of_error _ _ _ e h1]
    exact ⟨e, h1, rfl, rfl⟩

theorem stagePercent_eq (i : Nat) : stagePercent i = (((2 * i + 5) / 6 : Nat) : Int) := by
  unfold stagePercent jsRound
  have h : (((i : ℚ) + 1) / ((FRAME_COUNT : Nat) : ℚ)) * 40 + 1 / 2
      = (((2 * i + 5 : Nat) : ℚ)) / ((6 : Nat) : ℚ) := by
    simp only [FRAME_COUNT, FPS, DURATION_SECONDS]
    push_cast
    ring
  rw [h, Rat.floor_natCast_div_natCast]
  norm_cast

theorem stagePercent_mono {i j : Nat} (h : i ≤ j) : stagePercent i ≤ stagePercent j := by
  rw [stagePercent_eq, stagePercent_eq]
  have : (2 * i + 5) / 6 ≤ (2 * j + 5) / 6 := Nat.div_le_div_right (by omega)
  exact_mod_cast this

theorem stagePercent_bounds (i : Nat) (h : i < 120) :
    0 ≤ stagePercent i ∧ stagePercent i ≤ 40 := by
  rw [stagePercent_eq]
  have : (2 * i + 5) / 6 ≤ 40 := by omega
  exact ⟨by positivity, by exact_mod_cast this⟩

theorem stagePercent_last : stagePercent 119 = 40 := by
  rw [stagePercent_eq]; rfl

/-- The rounding of line 212 is far from a tie: an error below 1/6 in the
argument of `Math.round` (the floating-point evaluation is off by far less)
does not change the result. -/
theorem stagePercent_stable (i : Nat) (δ : ℚ) (hδ : |δ| < 1 / 6) :
    jsRound ((((i : ℚ) + 1) / (FRAME_COUNT : ℚ)) * 40 + δ) = stagePercent i := by
  rw [stagePercent_eq]
  unfold jsRound
  rw [Int.floor_eq_iff]
  have hdm := Nat.div_add_mod (2 * i + 5) 6
  have hmod : 1 ≤ (2 * i + 5) % 6 ∧ (2 * i + 5) % 6 ≤ 5 := by omega
  have hq : ((2 * i + 5 : Nat) : ℚ) = 6 * (((2 * i + 5) / 6 : Nat) : ℚ) +
      (((2 * i + 5) % 6 : Nat) : ℚ) := by exact_mod_cast hdm.symm
  have h1 : (1 : ℚ) ≤ (((2 * i + 5) % 6 : Nat) : ℚ) := by exact_mod_cast hmod.1
  have h5 : (((2 * i + 5) % 6 : Nat) : ℚ) ≤ 5 := by exact_mod_cast hmod.2
  have hx : (((i : ℚ) + 1) / ((FRAME_COUNT : Nat) : ℚ)) * 40 + δ + 1 / 2
      = (((2 * i + 5) / 6 : Nat) : ℚ) + (((2 * i + 5) % 6 : Nat) : ℚ) / 6 + δ := by
    have : (((i : ℚ) + 1) / ((FRAME_COUNT : Nat) : ℚ)) * 40 + 1 / 2
        = ((2 * i + 5 : Nat) : ℚ) / 6 := by
      simp only [FRAME_COUNT, FPS, DURATION_SECONDS]
      push_cast
      ring
    linarith
  rw [hx]
  have hlo := (abs_lt.mp hδ).1
  have hhi := (abs_lt.mp hδ).2
  simp only [Int.cast_natCast]
  constructor <;> linarith

/-! ### Projections of the event lists -/

theorem filterMap_flatMap_single {α β' : Type} (f : α → Option β') (g : Nat → List α)
    (h : Nat → β') (hg : ∀ k, (g k).filterMap f = [h k]) (l : List Nat) :
    (l.flatMap g).filterMap f = l.map h := by
  induction l with
  | nil => rfl
  | cons a l ih => simp [List.flatMap_cons, List.filterMap_append, hg, ih]

theorem filterMap_flatMap_nil {α β' : Type} (f : α → Option β') (g : Nat → List α)
    (hg : ∀ k, (g k).filterMap f = []) (l : List Nat) :
    (l.flatMap g).filterMap f = [] := by
  induction l with
  | nil => rfl
  | cons a l ih => simp [List.flatMap_cons, List.filterMap_append, hg, ih]

theorem percents_stage : percents ((List.range' 0 FRAME_COUNT).flatMap stageEvents)
    = (List.range' 0 FRAME_COUNT).map stagePercent := by
  apply filterMap_flatMap_single
  intro k
  unfold stageEvents
  split <;> rfl

theorem writes_stage : writes ((List.range' 0 FRAME_COUNT).flatMap stageEvents)
    = (List.range' 0 FRAME_COUNT).map frameName := by
  apply filterMap_flatMap_single
  intro k
  unfold stageEvents
  split <;> rfl

theorem execs_stage : execs ((List.range' 0 FRAME_COUNT).flatMap stageEvents) = [] := by
  apply filterMap_flatMap_nil
  intro k
  unfold stageEvents
  split <;> rfl

theorem reads_stage : reads ((List.range' 0 FRAME_COUNT).flatMap stageEvents) = [] := by
  apply filterMap_flatMap_nil
  intro k
  unfold stageEvents
  split <;> rfl

theorem deletes_stage : deletes ((List.range' 0 FRAME_COUNT).flatMap stageEvents) = [] := by
  apply filterMap_flatMap_nil
  intro k
  unfold stageEvents
  split <;> rfl

theorem deletes_cleanup : deletes cleanupEvents
    = (List.range' 0 FRAME_COUNT).map frameName ++ ["output.mp4"] := by
  have h : ∀ l : List Nat,
      deletes (l.flatMap fun i => [Event.deleteFile (frameName i)]) = l.map frameName :=
    fun l => by
      apply filterMap_flatMap_single
      intro k
      rfl
  have happ : ∀ a b, deletes (a ++ b) = deletes a ++ deletes b :=
    fun a b => List.filterMap_append _ _ _
  rw [cleanupEvents, happ, h]
  rfl

theorem percents_cleanup : percents cleanupEvents = [] := by
  have h : ∀ l : List Nat,
      percents (l.flatMap fun i => [Event.deleteFile (frameName i)]) = [] :=
    fun l => by
      apply filterMap_flatMap_nil
      intro k
      rfl
  have happ : ∀ a b, percents (a ++ b) = percents a ++ percents b :=
    fun a b => List.filterMap_append _ _ _
  rw [cleanupEvents, happ, h]
  rfl

theorem writes_cleanup : writes cleanupEvents = [] := by
  have h : ∀ l : List Nat,
      writes (l.flatMap fun i => [Event.deleteFile (frameName i)]) = [] :=
    fun l => by
      apply filterMap_flatMap_nil
      intro k
      rfl
  have happ : ∀ a b, writes (a ++ b) = writes a ++ writes b :=
    fun a b => List.filterMap_append _ _ _
  rw [cleanupEvents, happ, h]
  rfl

theorem execs_cleanup : execs cleanupEvents = [] := by
  have h : ∀ l : List Nat,
      execs (l.flatMap fun i => [Event.deleteFile (frameName i)]) = [] :=
    fun l => by
      apply filterMap_flatMap_nil
      intro k
      rfl
  have happ : ∀ a b, execs (a ++ b) = execs a ++ execs b :=
    fun a b => List.filterMap_append _ _ _
  rw [cleanupEvents, happ, h]
  rfl

theorem reads_cleanup : reads cleanupEvents = [] := by
  have h : ∀ l : List Nat,
      reads (l.flatMap fun i => [Event.deleteFile (frameName i)]) = [] :=
    fun l => by
      apply filterMap_flatMap_nil
      intro k
      rfl
  have happ : ∀ a b, reads (a ++ b) = reads a ++ reads b :=
    fun a b => List.filterMap_append _ _ _
  rw [cleanupEvents, happ, h]
  rfl

theorem filterMap_load_nil {β' : Type} (f : Event → Option β')
    (hf : ∀ ev, ev.isLoad = true → f ev = none) (l : List Event)
    (hl : ∀ ev ∈ l, ev.isLoad = true) : l.filterMap f = [] := by
  rw [List.filterMap_eq_nil_iff]
  intro ev hev
  exact hf ev (hl ev hev)

theorem percents_append (a b : List Event) : percents (a ++ b) = percents a ++ percents b :=
  List.filterMap_append _ _ _

theorem writes_append (a b : List Event) : writes (a ++ b) = writes a ++ writes b :=
  List.filterMap_append _ _ _

theorem execs_append (a b : List Event) : execs (a ++ b) = execs a ++ execs b :=
  List.filterMap_append _ _ _

theorem reads_append (a b : List Event) : reads (a ++ b) = reads a ++ reads b :=
  List.filterMap_append _ _ _

theorem deletes_append (a b : List Event) : deletes (a ++ b) = deletes a ++ deletes b :=
  List.filterMap_append _ _ _

theorem errors_append (a b : List Event) : errors (a ++ b) = errors a ++ errors b :=
  List.filterMap_append _ _ _

theorem percents_mono {a b : List Event} (h : a <+: b) : percents a <+: percents b :=
  h.filterMap _

theorem writes_mono {a b : List Event} (h : a <+: b) : writes a <+: writes b :=
  h.filterMap _

theorem execs_mono {a b : List Event} (h : a <+: b) : execs a <+: execs b :=
  h.filterMap _

theorem reads_mono {a b : List Event} (h : a <+: b) : reads a <+: reads b :=
  h.filterMap _

theorem deletes_mono {a b : List Event} (h : a <+: b) : deletes a <+: deletes b :=
  h.filterMap _

theorem errors_mono {a b : List Event} (h : a <+: b) : errors a <+: errors b :=
  h.filterMap _

/-- The events of any run: the four setters of lines 190-193, the events of
`ensureCoreLoaded`, an initial part of the events of a complete run, and the
events of the `catch` and `finally` blocks. -/
theorem generate_events (env : Env) (s : State) :
    ∃ ld rest tail,
      (generate env s).events =
        [.setError "", .setVideoUrl "", .setPercent 0, .setIsGenerating true] ++
          (ld ++ rest) ++ tail ∧
      (∀ ev ∈ ld, ev.isLoad = true) ∧
      rest <+: encodeEvents env ++ finishEvents ∧
      ((generateBody env (generateStart s)).result = .ok () →
        rest = encodeEvents env ++ finishEvents ∧ tail = [.setIsGenerating false]) ∧
      (∀ e, (generateBody env (generateStart s)).result = .error e →
        rest <+: encodeEvents env ∧
        tail = [.setError (errorText e), .setIsGenerating false]) := by
  have hld := (ensureCoreLoaded_facts env (generateStart s)).1
  rcases generate_cases env s with ⟨e, _, hb, hg⟩ | ⟨e, _, h2, hb, hg⟩ | ⟨_, _, hb, hg⟩
  · refine ⟨_, [], [.setError (errorText e), .setIsGenerating false], by rw [hg]; simp, hld,
      List.nil_prefix, ?_, ?_⟩
    · intro h; rw [hb] at h; cases h
    · intro e' h
      rw [hb] at h
      cases h
      exact ⟨List.nil_prefix, rfl⟩
  · have hp := (nominal_encodePart env (ensureCoreLoaded env (generateStart s)).state).1
    refine ⟨_, _, _, by rw [hg], hld, hp.trans (List.prefix_append _ _), ?_, ?_⟩
    · intro h; rw [hb] at h; cases h
    · intro e' h
      rw [hb] at h
      cases h
      exact ⟨hp, rfl⟩
  · refine ⟨_, _, _, by rw [hg], hld, List.prefix_refl _, ?_, ?_⟩
    · intro _; exact ⟨rfl, rfl⟩
    · intro e' h; rw [hb] at h; cases h

theorem percents_encodeEvents (env : Env) :
    percents (encodeEvents env) = (List.range' 0 FRAME_COUNT).map stagePercent ++ [85] := by
  unfold encodeEvents
  simp only [percents_append, percents_stage]
  rfl

theorem percents_finishEvents : percents finishEvents = [100] := by
  unfold finishEvents
  rw [percents_append, percents_cleanup]
  rfl

theorem percents_load (l : List Event) (hl : ∀ ev ∈ l, ev.isLoad = true) :
    percents l = [] := by
  apply filterMap_load_nil _ _ l hl
  intro ev h
  cases ev <;> first | rfl | cases h

theorem stagePercents_sorted :
    ((0 : Int) :: ((List.range' 0 FRAME_COUNT).map stagePercent ++ [85, 100])).Sorted (· ≤ ·) := by
  have hmem : ∀ x ∈ (List.range' 0 FRAME_COUNT).map stagePercent, 0 ≤ x ∧ x ≤ 40 := by
    intro x hx
    rcases List.mem_map.mp hx with ⟨i, hi, rfl⟩
    have : i < 120 := by
      have := (List.mem_range'_1.mp hi).2
      simpa [FRAME_COUNT, FPS, DURATION_SECONDS] using this
    exact stagePercent_bounds i this
  rw [List.Sorted, List.pairwise_cons]
  constructor
  · intro x hx
    rcases List.mem_append.mp hx with h | h
    · exact (hmem x h).1
    · simp at h
      rcases h with rfl | rfl <;> decide
  · rw [List.pairwise_append]
    refine ⟨?_, by decide, ?_⟩
    · rw [List.pairwise_map]
      exact (List.pairwise_lt_range' 0 FRAME_COUNT).imp fun h => stagePercent_mono (le_of_lt h)
    · intro a ha b hb
      have := (hmem a ha).2
      simp at hb
      rcases hb with rfl | rfl <;> omega

theorem hundred_not_staged : (100 : Int) ∉ (List.range' 0 FRAME_COUNT).map stagePercent ++ [85] := by
  intro h
  rcases List.mem_append.mp h with h | h
  · rcases List.mem_map.mp h with ⟨i, hi, hv⟩
    have : i < 120 := by
      have := (List.mem_range'_1.mp hi).2
      simpa [FRAME_COUNT, FPS, DURATION_SECONDS] using this
    have := (stagePercent_bounds i this).2
    omega
  · simp at h


theorem prefix_split {α : Type} {l P Q : List α} {x y : α} (h : l <+: P ++ x :: Q)
    (hy : y ∈ l) (hyP : y ∉ P) : ∃ R, l = P ++ x :: R ∧ R <+: Q := by
  rcases List.prefix_or_prefix_of_prefix h (List.prefix_append P (x :: Q)) with h1 | h1
  · exact absurd (h1.mem hy) hyP
  · obtain ⟨t, rfl⟩ := h1
    rw [List.prefix_append_right_inj, List.prefix_cons_iff] at h
    rcases h with rfl | ⟨t', rfl, ht'⟩
    · rw [List.append_nil] at hy
      exact absurd hy hyP
    · exact ⟨t', rfl, ht'⟩

theorem mem_execs {args : List String} {l : List Event} :
    Event.exec args ∈ l ↔ args ∈ execs l := by
  unfold execs
  rw [List.mem_filterMap]
  constructor
  · intro h
    exact ⟨_, h, rfl⟩
  · rintro ⟨ev, hev, h⟩
    cases ev <;> simp at h
    subst h
    exact hev

theorem execs_load (l : List Event) (hl : ∀ ev ∈ l, ev.isLoad = true) : execs l = [] := by
  apply filterMap_load_nil _ _ l hl
  intro ev h
  cases ev <;> first | rfl | cases h

theorem writes_load (l : List Event) (hl : ∀ ev ∈ l, ev.isLoad = true) : writes l = [] := by
  apply filterMap_load_nil _ _ l hl
  intro ev h
  cases ev <;> first | rfl | cases h

theorem reads_load (l : List Event) (hl : ∀ ev ∈ l, ev.isLoad = true) : reads l = [] := by
  apply filterMap_load_nil _ _ l hl
  intro ev h
  cases ev <;> first | rfl | cases h

theorem deletes_load (l : List Event) (hl : ∀ ev ∈ l, ev.isLoad = true) : deletes l = [] := by
  apply filterMap_load_nil _ _ l hl
  intro ev h
  cases ev <;> first | rfl | cases h

/-- The complete run after `ensureCoreLoaded`, split at the call of `exec`. -/
theorem encode_finish_split (env : Env) :
    encodeEvents env ++ finishEvents =
      ([Event.getContext] ++ (List.range' 0 FRAME_COUNT).flatMap stageEvents) ++
        Event.exec execArgs ::
          ([.setPercent 85, .readFile "output.mp4", .createObjectURL,
            .setVideoUrl env.objectURL] ++ finishEvents) := by
  simp [encodeEvents]


theorem ends_bind_right {δ : Type} {f : State → δ} {v : δ} {p q : Prog Unit}
    (hq : Ends f v q) : Ends f v (p >>= fun _ => q) := by
  intro s h
  rcases result_cases (p s).result with hp | ⟨e, hp⟩
  · rw [bind_of_ok p _ s () hp] at h ⊢
    exact hq _ h
  · rw [bind_of_error p _ s e hp] at h
    cases h

theorem preserves_setPercent {δ : Type} (f : State → δ)
    (hf : ∀ s v, f { s with percent := v } = f s) (v : Int) : Preserves f (setPercent v) :=
  fun s => hf s v

theorem preserves_setVideoUrl {δ : Type} (f : State → δ)
    (hf : ∀ s v, f { s with videoUrl := v } = f s) (v : String) :
    Preserves f (setVideoUrl v) :=
  fun s => hf s v

theorem preserves_stageFrame {δ : Type} (f : State → δ)
    (hp : ∀ s v, f { s with percent := v } = f s)
    (he : ∀ s v, f { s with ffmpeg := v } = f s) (env : Env) (i : Nat) :
    Preserves f (stageFrame env i) :=
  preserves_bind (preserves_external f _ _) fun _ =>
    preserves_bind (preserves_external f _ _) fun _ =>
      preserves_bind (preserves_engineCall f he _ _ _) fun _ =>
        preserves_bind (preserves_setPercent f hp _) fun _ =>
          preserves_ite (preserves_external f _ _) (preserves_pure f ())

theorem preserves_encodePart {δ : Type} (f : State → δ)
    (hp : ∀ s v, f { s with percent := v } = f s)
    (hv : ∀ s v, f { s with videoUrl := v } = f s)
    (he : ∀ s v, f { s with ffmpeg := v } = f s) (env : Env) :
    Preserves f (encodePart env) :=
  preserves_bind (preserves_external f _ _) fun _ =>
    preserves_bind (preserves_forLoop (preserves_stageFrame f hp he env) _ _) fun _ =>
      preserves_bind (preserves_engineCall f he _ _ _) fun _ =>
        preserves_bind (preserves_setPercent f hp _) fun _ =>
          preserves_bind (preserves_engineCall f he _ _ _) fun _ =>
            preserves_bind (preserves_external f _ _) fun _ =>
              preserves_setVideoUrl f hv _

theorem preserves_cleanup {δ : Type} (f : State → δ)
    (he : ∀ s v, f { s with ffmpeg := v } = f s) (env : Env) :
    Preserves f (cleanup env) :=
  preserves_bind
    (preserves_forLoop (fun _ => preserves_tryCatch (preserves_engineCall f he _ _ _)
      fun _ => preserves_pure f ()) _ _)
    fun _ => preserves_tryCatch (preserves_engineCall f he _ _ _) fun _ => preserves_pure f ()

theorem preserves_finishPart {δ : Type} (f : State → δ)
    (hp : ∀ s v, f { s with percent := v } = f s)
    (he : ∀ s v, f { s with ffmpeg := v } = f s) (env : Env) :
    Preserves f (finishPart env) :=
  preserves_bind (preserves_setPercent f hp _) fun _ => preserves_cleanup f he env

theorem ends_encodePart_videoUrl (env : Env) :
    Ends (fun s => s.videoUrl) env.objectURL (encodePart env) :=
  ends_bind_right (ends_bind_right (ends_bind_right (ends_bind_right (ends_bind_right
    (ends_bind_right (fun _ _ => rfl))))))

theorem finishPart_percent (env : Env) (s : State) : (finishPart env s).state.percent = 100 := by
  unfold finishPart
  rw [bind_of_ok _ _ s () rfl]
  exact preserves_cleanup (fun s => s.percent) (fun _ _ => rfl) env _

/-- A run ends idle: neither flag is left set. -/
theorem generate_idle (env : Env) (s : State) (h : s.isLoadingCore = false) :
    (generate env s).state.isLoadingCore = false ∧
    (generate env s).state.isGenerating = false := by
  have hen := (ensureCoreLoaded_facts env (generateStart s)).2.2.2.2.2.2.1 h
  have hep := preserves_encodePart (fun s => s.isLoadingCore) (fun _ _ => rfl)
    (fun _ _ => rfl) (fun _ _ => rfl) env
  have hfp := preserves_finishPart (fun s => s.isLoadingCore) (fun _ _ => rfl)
    (fun _ _ => rfl) env
  rcases generate_cases env s with ⟨e, _, _, hg⟩ | ⟨e, _, _, _, hg⟩ | ⟨_, _, _, hg⟩
  · rw [hg]; exact ⟨hen, rfl⟩
  · rw [hg]; exact ⟨(hep _).trans hen, rfl⟩
  · rw [hg]; exact ⟨(hfp _).trans ((hep _).trans hen), rfl⟩

theorem reachable_idle {s : State} (h : Reachable s) :
    s.isLoadingCore = false ∧ s.isGenerating = false := by
  induction h with
  | initial => exact ⟨rfl, rfl⟩
  | mount _ ih => exact ih
  | log _ _ ih => exact ih
  | generate env _ ih => exact generate_idle env _ ih.1


theorem ensureCoreLoaded_ok (env : Env) (s : State) (engine : Engine)
    (hs : s.ffmpeg = some engine) (h : engine.loaded = true ∨ LoadsOk env) :
    (ensureCoreLoaded env s).result = .ok () := by
  unfold ensureCoreLoaded
  rw [bind_of_ok getState _ s s rfl]
  simp only [getState, hs]
  cases hl : engine.loaded with
  | true => simp [pure_apply]
  | false =>
    rcases h with h | ⟨hb, hload⟩
    · rw [hl] at h; cases h
    · simp only [Bool.false_eq_true, ↓reduceIte]
      rw [bind_of_ok _ _ s () rfl]
      simp [tryFinally, bind, Prog.bind, external, engineLoad, engineCall, setIsLoadingCore,
        hb, hload, hs]

theorem stageFrame_ok (env : Env) (i : Nat) (s : State) (engine : Engine)
    (hs : s.ffmpeg = some engine) (hf : env.fetchFile i = none)
    (hw : env.writeFile (frameName i) = none) :
    (stageFrame env i s).result = .ok () ∧
    (stageFrame env i s).state.ffmpeg =
      some { engine with files := frameName i :: engine.files.erase (frameName i) } := by
  unfold stageFrame
  by_cases h12 : i % 12 = 0 <;>
  simp [bind, Prog.bind, external, writeFile, engineCall, setPercent, hs, hf, hw, h12,
    pure_apply, Prog.pure, pure]

theorem stage_loop_ok (env : Env) (hst : StagesOk env) (n : Nat) :
    ∀ (i : Nat) (s : State) (engine : Engine), s.ffmpeg = some engine →
      (forLoop (stageFrame env) n i s).result = .ok () ∧
      ∃ engine1, (forLoop (stageFrame env) n i s).state.ffmpeg = some engine1 ∧
        engine1.loaded = engine.loaded ∧
        (∀ x ∈ engine.files, x ∈ engine1.files) ∧
        ∀ j, i ≤ j → j < i + n → frameName j ∈ engine1.files := by
  induction n with
  | zero =>
    intro i s engine hs
    exact ⟨rfl, engine, hs, rfl, fun _ hx => hx, fun j h1 h2 => by omega⟩
  | succ n ih =>
    intro i s engine hs
    have h1 := stageFrame_ok env i s engine hs (hst.2.1 i) (hst.2.2 _)
    obtain ⟨hr, engine1, he1, hl1, hsub, hmem⟩ := ih (i + 1) _ _ h1.2
    have hstep : forLoop (stageFrame env) (n + 1) i s
        = (stageFrame env i >>= fun _ => forLoop (stageFrame env) n (i + 1)) s := rfl
    rw [hstep, bind_of_ok _ _ s () h1.1]
    have hkeep : ∀ x, x ∈ frameName i :: engine.files.erase (frameName i) →
        x ∈ engine1.files := fun x hx => hsub x hx
    refine ⟨hr, engine1, he1, hl1, ?_, ?_⟩
    · intro x hx
      apply hkeep
      by_cases hxi : x = frameName i
      · rw [hxi]; exact List.mem_cons_self _ _
      · exact List.mem_cons_of_mem _ ((List.mem_erase_of_ne hxi).mpr hx)
    · intro j hj1 hj2
      rcases Nat.eq_or_lt_of_le hj1 with hj | hj
      · subst hj
        exact hkeep _ (List.mem_cons_self _ _)
      · exact hmem j hj (by omega)

/-- With staging healthy, a run in which `exec` throws stops there: the 120
staged files are still in the engine's storage. -/
theorem encodePart_exec_error (env : Env) (s : State) (engine : Engine) (e : Thrown)
    (hst : StagesOk env) (hs : s.ffmpeg = some engine) (hexec : env.exec = some e) :
    (encodePart env s).result = .error e ∧
    ∃ engine1, (encodePart env s).state.ffmpeg = some engine1 ∧
      ∀ j, j < FRAME_COUNT → frameName j ∈ engine1.files := by
  have hctx : (external .getContext (if env.getContext then none
      else some (jsError "Canvas 2D context not available")) s).result = .ok () := by
    simp [external, hst.1]
  have hs1 := (preserves_external (fun s => s.ffmpeg) .getContext (if env.getContext then none
      else some (jsError "Canvas 2D context not available")) s).trans hs
  obtain ⟨hr, engine1, he1, _, _, hmem⟩ := stage_loop_ok env hst FRAME_COUNT 0 _ _ hs1
  unfold encodePart
  rw [bind_of_ok _ _ s () hctx, bind_of_ok _ _ _ () hr]
  have hx : ∀ s2 : State, s2.ffmpeg = some engine1 →
      (exec env execArgs s2).result = .error e ∧ (exec env execArgs s2).state = s2 := by
    intro s2 h2
    simp [exec, engineCall, h2, hexec]
  rw [bind_of_error _ _ _ e (hx _ he1).1]
  refine ⟨rfl, engine1, ?_, fun j hj => hmem j (Nat.zero_le j) (by omega)⟩
  simp only
  rw [(hx _ he1).2, he1]

theorem encodePart_ok (env : Env) (s : State) (engine : Engine)
    (hst : StagesOk env) (hs : s.ffmpeg = some engine) (hexec : env.exec = none)
    (henc : env.encoded = true) (hread : env.readFile "output.mp4" = none) :
    (encodePart env s).result = .ok () := by
  have hctx : (external .getContext (if env.getContext then none
      else some (jsError "Canvas 2D context not available")) s).result = .ok () := by
    simp [external, hst.1]
  have hs1 := (preserves_external (fun s => s.ffmpeg) .getContext (if env.getContext then none
      else some (jsError "Canvas 2D context not available")) s).trans hs
  obtain ⟨hr, engine1, he1, _, _, _⟩ := stage_loop_ok env hst FRAME_COUNT 0 _ _ hs1
  unfold encodePart
  rw [bind_of_ok _ _ s () hctx, bind_of_ok _ _ _ () hr]
  have hx : ∀ s2 : State, s2.ffmpeg = some engine1 →
      (exec env execArgs s2).result = .ok () ∧ (exec env execArgs s2).state.ffmpeg =
        some { engine1 with files := "output.mp4" :: engine1.files.erase "output.mp4" } := by
    intro s2 h2
    simp [exec, engineCall, h2, hexec, henc]
  rw [bind_of_ok _ _ _ () (hx _ he1).1, bind_of_ok _ _ _ () rfl]
  have hrd : ∀ s3 : State, s3.ffmpeg =
        some { engine1 with files := "output.mp4" :: engine1.files.erase "output.mp4" } →
      (readFile env "output.mp4" s3).result = .ok () := by
    intro s3 h3
    simp [readFile, engineCall, h3, hread]
  have h85 : ∀ s3 : State, (setPercent 85 s3).state.ffmpeg = s3.ffmpeg := fun _ => rfl
  rw [bind_of_ok _ _ _ () (hrd _ ((h85 _).trans (hx _ he1).2))]
  rfl

/-- With the engine in place and nothing failing up to `readFile`, the `try`
body of `generate` completes. -/
theorem generateBody_ok (env : Env) (s : State) (engine : Engine)
    (hs : s.ffmpeg = some engine) (hload : engine.loaded = true ∨ LoadsOk env)
    (hst : StagesOk env) (hexec : env.exec = none) (henc : env.encoded = true)
    (hread : env.readFile "output.mp4" = none) :
    (generateBody env (generateStart s)).result = .ok () := by
  have h1 := ensureCoreLoaded_ok env (generateStart s) engine hs hload
  obtain ⟨_, engine1, _, he1, _, _⟩ :=
    (ensureCoreLoaded_facts env (generateStart s)).2.2.2.2.2.2.2.2 h1
  have h2 := encodePart_ok env _ engine1 hst he1 hexec henc hread
  rcases generate_cases env s with ⟨e, h, _, _⟩ | ⟨e, _, h, _, _⟩ | ⟨_, _, h, _⟩
  · rw [h1] at h; cases h
  · rw [h2] at h; cases h
  · exact h

/-- With the engine in place and staging healthy, a run in which `exec` throws
calls no `deleteFile` and leaves the 120 staged files in the engine. -/
theorem generate_exec_error (env : Env) (s : State) (engine : Engine) (e : Thrown)
    (hs : s.ffmpeg = some engine) (hload : engine.loaded = true ∨ LoadsOk env)
    (hst : StagesOk env) (hexec : env.exec = some e) :
    deletes (generate env s).events = [] ∧
    (generate env s).state.error = errorText e ∧
    ∃ engine1, (generate env s).state.ffmpeg = some engine1 ∧
      ∀ j, j < FRAME_COUNT → frameName j ∈ engine1.files := by
  have h1 := ensureCoreLoaded_ok env (generateStart s) engine hs hload
  have hld := (ensureCoreLoaded_facts env (generateStart s)).1
  obtain ⟨_, engine1, _, he1, _, _⟩ :=
    (ensureCoreLoaded_facts env (generateStart s)).2.2.2.2.2.2.2.2 h1
  obtain ⟨h2, engine2, he2, hmem⟩ := encodePart_exec_error env _ engine1 e hst he1 hexec
  have hpre := (nominal_encodePart env (ensureCoreLoaded env (generateStart s)).state).1
  rcases generate_cases env s with ⟨e', h, _, _⟩ | ⟨e', _, h, _, hg⟩ | ⟨_, h, _, _⟩
  · rw [h1] at h; cases h
  · rw [h2] at h
    cases h
    rw [hg]
    refine ⟨?_, rfl, engine2, he2, hmem⟩
    simp only [deletes_append, deletes_load _ hld]
    have hd : deletes (encodeEvents env) = [] := by
      unfold encodeEvents
      simp only [deletes_append, deletes_stage]
      rfl
    have := deletes_mono hpre
    rw [hd, List.prefix_nil] at this
    rw [this]
    rfl
  · rw [h2] at h; cases h

/-- The values passed to `setPercent` in a run: 0, then an initial part of the
staging values followed by 85 and 100, all of it exactly when the `try` body
completes. -/
theorem percents_generate (env : Env) (s : State) :
    ∃ t, percents (generate env s).events = 0 :: t ∧
      t <+: (List.range' 0 FRAME_COUNT).map stagePercent ++ [85, 100] ∧
      ((generateBody env (generateStart s)).result = .ok () →
        t = (List.range' 0 FRAME_COUNT).map stagePercent ++ [85, 100]) ∧
      (∀ e, (generateBody env (generateStart s)).result = .error e → (100 : Int) ∉ t) := by
  rcases generate_events env s with ⟨ld, rest, tail, hev, hld, hrest, hok, herr⟩
  have hfull : percents (encodeEvents env ++ finishEvents)
      = (List.range' 0 FRAME_COUNT).map stagePercent ++ [85, 100] := by
    rw [percents_append, percents_encodeEvents, percents_finishEvents]
    simp
  have htail : percents tail = [] := by
    rcases result_cases (generateBody env (generateStart s)).result with h | ⟨e, h⟩
    · rw [(hok h).2]; rfl
    · rw [(herr e h).2]; rfl
  refine ⟨percents rest, ?_, ?_, ?_, ?_⟩
  · rw [hev]
    simp only [percents_append, percents_load ld hld, htail]
    simp [percents]
  · rw [← hfull]
    exact percents_mono hrest
  · intro h
    rw [(hok h).1, hfull]
  · intro e h hmem
    have := (percents_mono (herr e h).1).mem hmem
    exact hundred_not_staged (by rw [← percents_encodeEvents env]; exact this)

theorem mem_percents {v : Int} {l : List Event} :
    Event.setPercent v ∈ l ↔ v ∈ percents l := by
  unfold percents
  rw [List.mem_filterMap]
  constructor
  · intro h
    exact ⟨_, h, rfl⟩
  · rintro ⟨ev, hev, h⟩
    cases ev <;> simp at h
    subst h
    exact hev

/-- Line 242 is reached exactly when the `try` body completes. -/
theorem done_iff_ok (env : Env) (s : State) :
    Event.setPercent 100 ∈ (generate env s).events ↔
      (generateBody env (generateStart s)).result = .ok () := by
  rcases percents_generate env s with ⟨t, hpt, _, htok, hterr⟩
  rw [mem_percents]
  constructor
  · intro h
    rcases result_cases (generateBody env (generateStart s)).result with hr | ⟨e, hr⟩
    · exact hr
    · rw [hpt, List.mem_cons] at h
      rcases h with h | h
      · cases h
      · exact absurd h (hterr e hr)
  · intro h
    rw [hpt, htok h]
    simp

/-- A run whose `try` body completes calls `exec`. -/
theorem exec_of_ok (env : Env) (s : State)
    (h : (generateBody env (generateStart s)).result = .ok ()) :
    Event.exec execArgs ∈ (generate env s).events := by
  rcases generate_events env s with ⟨ld, rest, tail, hev, _, _, hok, _⟩
  rw [hev, (hok h).1, encode_finish_split]
  simp


/-- In any run the frames are drawn in index order from 0, each on the canvas
that the frames before it were drawn on: the indices passed to `drawFrame` are
an initial part of 0, 1, ..., 119. -/
theorem draws_generate (env : Env) (s : State) :
    draws (generate env s).events <+: List.range' 0 FRAME_COUNT := by
  rcases generate_events env s with ⟨ld, rest, tail, hev, hld, hrest, hok, herr⟩
  have happ : ∀ a b, draws (a ++ b) = draws a ++ draws b :=
    fun a b => List.filterMap_append _ _ _
  have hl : draws ld = [] := by
    apply filterMap_load_nil _ _ ld hld
    intro ev h
    cases ev <;> first | rfl | cases h
  have htail : draws tail = [] := by
    rcases result_cases (generateBody env (generateStart s)).result with h | ⟨e, h⟩
    · rw [(hok h).2]; rfl
    · rw [(herr e h).2]; rfl
  have hs : draws ((List.range' 0 FRAME_COUNT).flatMap stageEvents)
      = (List.range' 0 FRAME_COUNT).map id := by
    apply filterMap_flatMap_single
    intro k
    unfold stageEvents
    split <;> rfl
  have hc : draws ((List.range' 0 FRAME_COUNT).flatMap
      fun i => [Event.deleteFile (frameName i)]) = [] := by
    apply filterMap_flatMap_nil
    intro k
    rfl
  have hfull : draws (encodeEvents env ++ finishEvents) = List.range' 0 FRAME_COUNT := by
    unfold encodeEvents finishEvents cleanupEvents
    simp only [happ, hs, hc, List.map_id]
    simp [draws]
  have hr : draws rest <+: draws (encodeEvents env ++ finishEvents) := hrest.filterMap _
  rw [hev]
  simp only [happ, hl, htail]
  rw [hfull] at hr
  simpa [draws] using hr

/-- In a run whose `try` body throws, at whatever step, `deleteFile` is never
called: the deletions are reached only after `setPercent(100)`. -/
theorem deletes_of_error (env : Env) (s : State) (e : Thrown)
    (h : (generateBody env (generateStart s)).result = .error e) :
    deletes (generate env s).events = [] := by
  rcases generate_events env s with ⟨ld, rest, tail, hev, hld, _, _, herr⟩
  have hd : deletes (encodeEvents env) = [] := by
    unfold encodeEvents
    simp only [deletes_append, deletes_stage]
    rfl
  have hr := deletes_mono (herr e h).1
  rw [hd, List.prefix_nil] at hr
  rw [hev, (herr e h).2]
  simp only [deletes_append, deletes_load _ hld, hr]
  rfl

/-! ## Lemmas: the log listener -/

theorem logAfter_snoc (ms : List String) (m : String) :
    logAfter (ms ++ [m]) = onLog (logAfter ms) m := by
  simp [logAfter, List.foldl_append]

theorem logAfter_eq_drop (ms : List String) :
    logAfter ms = ms.drop (ms.length - 201) := by
  induction ms using List.reverseRecOn with
  | nil => rfl
  | append_singleton ms m ih =>
    rw [logAfter_snoc, ih, onLog, sliceLast]
    simp only [List.concat_eq_append, List.length_drop, List.length_append,
      List.length_singleton, List.drop_drop]
    by_cases h : ms.length ≤ 200
    · have h1 : ¬ (ms.length - (ms.length - 201) > 200) := by omega
      rw [if_neg h1]
      have h2 : ms.length - 201 = 0 := by omega
      have h3 : ms.length + 1 - 201 = 0 := by omega
      simp [h2, h3]
    · have h1 : ms.length - (ms.length - 201) > 200 := by omega
      rw [if_pos h1]
      have h2 : ms.length - (ms.length - 201) - 200 + (ms.length - 201)
          = ms.length + 1 - 201 := by omega
      have h4 : ms.length - 201 + (ms.length - (ms.length - 201) - 200)
          = ms.length + 1 - 201 := by omega
      have h3 : ms.length + 1 - 201 ≤ ms.length := by omega
      rw [List.drop_append_of_le_length h3]
      first
        | rw [h2]
        | rw [h4]

/-! ## Lemmas: staged names -/

set_option maxRecDepth 100000 in
theorem frameName_step :
    ∀ i < 119, (frameName i).toList < (frameName (i + 1)).toList := by
  decide

theorem frameName_lt_succ (i : Nat) (h : i < 119) : frameName i < frameName (i + 1) :=
  String.lt_iff_toList_lt.mpr (frameName_step i h)

theorem frameName_lt (i j : Nat) (hij : i < j) (hj : j < 120) :
    frameName i < frameName j := by
  induction j with
  | zero => omega
  | succ j ih =>
    rcases Nat.lt_succ_iff_lt_or_eq.mp hij with h | h
    · exact lt_trans (ih h (by omega)) (frameName_lt_succ j (by omega))
    · subst h
      exact frameName_lt_succ i (by omega)

/-! ## Lemmas: the canvas context and `drawFrame` -/

set_option linter.unusedSectionVars false

section CanvasLemmas

variable {α : Type}

theorem saveDepth_append (A B : List (Instr α)) (d : Nat) :
    saveDepth (A ++ B) d = (saveDepth A d).bind (saveDepth B) := by
  induction A generalizing d with
  | nil => rfl
  | cons a A ih =>
    cases a
    case restore =>
      cases d with
      | zero => rfl
      | succ d => exact ih d
    all_goals exact ih _

variable {S S' : List (Settings α)} {L L' : List (Instr α)} {b : Bool}
  {P : List (Settings α)} {c c' : Ctx α}

theorem Sim.weaken (h : Sim S S' L L' b P c c') : Sim S S' L L' false P c c' :=
  ⟨h.settings, h.stack, h.stack', h.log, fun hb => by cases hb⟩

theorem Sim.save (h : Sim S S' L L' b P c c') :
    Sim S S' L L' b (c.settings :: P) c.save c'.save := by
  obtain ⟨hs, hk, hk', ⟨N, hl, hl', hd⟩, hp⟩ := h
  refine ⟨hs, by simp [Ctx.save, hk], by simp [Ctx.save, hk', hs],
    ⟨N ++ [.save], by simp [Ctx.save, hl], by simp [Ctx.save, hl'], ?_⟩, hp⟩
  simp [saveDepth_append, hd, saveDepth]

theorem Sim.restore {x : Settings α} (h : Sim S S' L L' b (x :: P) c c') :
    Sim S S' L L' b P c.restore c'.restore ∧ c.restore.settings = x := by
  obtain ⟨hs, hk, hk', ⟨N, hl, hl', hd⟩, hp⟩ := h
  refine ⟨⟨by simp [Ctx.restore, hk, hk'], by simp [Ctx.restore, hk],
    by simp [Ctx.restore, hk'],
    ⟨N ++ [.restore], by simp [Ctx.restore, hk, hl], by simp [Ctx.restore, hk', hl'], ?_⟩,
    fun hb => by simpa [Ctx.restore, hk, hk'] using hp hb⟩, by simp [Ctx.restore, hk]⟩
  simp [saveDepth_append, hd, saveDepth]

theorem Sim.setFillStyle {x : Settings α} (v : Style α) (h : Sim S S' L L' b (x :: P) c c') :
    Sim S S' L L' b (x :: P) (c.setFillStyle v) (c'.setFillStyle v) := by
  obtain ⟨hs, hk, hk', hl, hp⟩ := h
  exact ⟨by simp [Ctx.setFillStyle, hs], hk, hk', hl, hp⟩

theorem Sim.setStrokeStyle {x : Settings α} (v : Style α) (h : Sim S S' L L' b (x :: P) c c') :
    Sim S S' L L' b (x :: P) (c.setStrokeStyle v) (c'.setStrokeStyle v) := by
  obtain ⟨hs, hk, hk', hl, hp⟩ := h
  exact ⟨by simp [Ctx.setStrokeStyle, hs], hk, hk', hl, hp⟩

theorem Sim.setGlobalAlpha {x : Settings α} (v : α) (h : Sim S S' L L' b (x :: P) c c') :
    Sim S S' L L' b (x :: P) (c.setGlobalAlpha v) (c'.setGlobalAlpha v) := by
  obtain ⟨hs, hk, hk', hl, hp⟩ := h
  exact ⟨by simp [Ctx.setGlobalAlpha, hs], hk, hk', hl, hp⟩

theorem Sim.setLineWidth {x : Settings α} (v : α) (h : Sim S S' L L' b (x :: P) c c') :
    Sim S S' L L' b (x :: P) (c.setLineWidth v) (c'.setLineWidth v) := by
  obtain ⟨hs, hk, hk', hl, hp⟩ := h
  exact ⟨by simp [Ctx.setLineWidth, hs], hk, hk', hl, hp⟩

theorem Sim.setShadowColor {x : Settings α} (v : String) (h : Sim S S' L L' b (x :: P) c c') :
    Sim S S' L L' b (x :: P) (c.setShadowColor v) (c'.setShadowColor v) := by
  obtain ⟨hs, hk, hk', hl, hp⟩ := h
  exact ⟨by simp [Ctx.setShadowColor, hs], hk, hk', hl, hp⟩

theorem Sim.setShadowBlur {x : Settings α} (v : α) (h : Sim S S' L L' b (x :: P) c c') :
    Sim S S' L L' b (x :: P) (c.setShadowBlur v) (c'.setShadowBlur v) := by
  obtain ⟨hs, hk, hk', hl, hp⟩ := h
  exact ⟨by simp [Ctx.setShadowBlur, hs], hk, hk', hl, hp⟩

theorem Sim.setTextAlign {x : Settings α} (v : String) (h : Sim S S' L L' b (x :: P) c c') :
    Sim S S' L L' b (x :: P) (c.setTextAlign v) (c'.setTextAlign v) := by
  obtain ⟨hs, hk, hk', hl, hp⟩ := h
  exact ⟨by simp [Ctx.setTextAlign, hs], hk, hk', hl, hp⟩

theorem Sim.setFont {x : Settings α} (v : String) (h : Sim S S' L L' b (x :: P) c c') :
    Sim S S' L L' b (x :: P) (c.setFont v) (c'.setFont v) := by
  obtain ⟨hs, hk, hk', hl, hp⟩ := h
  exact ⟨by simp [Ctx.setFont, hs], hk, hk', hl, hp⟩

theorem Sim.beginPath (h : Sim S S' L L' b P c c') :
    Sim S S' L L' true P c.beginPath c'.beginPath := by
  obtain ⟨hs, hk, hk', ⟨N, hl, hl', hd⟩, _⟩ := h
  refine ⟨hs, hk, hk', ⟨N ++ [.beginPath], by simp [Ctx.beginPath, hl],
    by simp [Ctx.beginPath, hl'], ?_⟩, fun _ => rfl⟩
  simp [saveDepth_append, hd, saveDepth]

theorem Sim.moveTo (x y : α) (h : Sim S S' L L' b P c c') :
    Sim S S' L L' b P (c.moveTo x y) (c'.moveTo x y) := by
  obtain ⟨hs, hk, hk', ⟨N, hl, hl', hd⟩, hp⟩ := h
  refine ⟨hs, hk, hk', ⟨N ++ [.moveTo x y], by simp [Ctx.moveTo, hl],
    by simp [Ctx.moveTo, hl'], ?_⟩, fun hb => by simp [Ctx.moveTo, hp hb]⟩
  simp [saveDepth_append, hd, saveDepth]

theorem Sim.lineTo (x y : α) (h : Sim S S' L L' b P c c') :
    Sim S S' L L' b P (c.lineTo x y) (c'.lineTo x y) := by
  obtain ⟨hs, hk, hk', ⟨N, hl, hl', hd⟩, hp⟩ := h
  refine ⟨hs, hk, hk', ⟨N ++ [.lineTo x y], by simp [Ctx.lineTo, hl],
    by simp [Ctx.lineTo, hl'], ?_⟩, fun hb => by simp [Ctx.lineTo, hp hb]⟩
  simp [saveDepth_append, hd, saveDepth]

theorem Sim.arc (x y radius a0 a1 : α) (h : Sim S S' L L' b P c c') :
    Sim S S' L L' b P (c.arc x y radius a0 a1) (c'.arc x y radius a0 a1) := by
  obtain ⟨hs, hk, hk', ⟨N, hl, hl', hd⟩, hp⟩ := h
  refine ⟨hs, hk, hk', ⟨N ++ [.arc x y radius a0 a1], by simp [Ctx.arc, hl],
    by simp [Ctx.arc, hl'], ?_⟩, fun hb => by simp [Ctx.arc, hp hb]⟩
  simp [saveDepth_append, hd, saveDepth]

theorem Sim.ellipse (x y rx ry rot a0 a1 : α) (h : Sim S S' L L' b P c c') :
    Sim S S' L L' b P (c.ellipse x y rx ry rot a0 a1) (c'.ellipse x y rx ry rot a0 a1) := by
  obtain ⟨hs, hk, hk', ⟨N, hl, hl', hd⟩, hp⟩ := h
  refine ⟨hs, hk, hk', ⟨N ++ [.ellipse x y rx ry rot a0 a1], by simp [Ctx.ellipse, hl],
    by simp [Ctx.ellipse, hl'], ?_⟩, fun hb => by simp [Ctx.ellipse, hp hb]⟩
  simp [saveDepth_append, hd, saveDepth]

theorem Sim.stroke (h : Sim S S' L L' true P c c') :
    Sim S S' L L' true P c.stroke c'.stroke := by
  obtain ⟨hs, hk, hk', ⟨N, hl, hl', hd⟩, hp⟩ := h
  refine ⟨hs, hk, hk', ⟨N ++ [.stroke c.path c.settings], by simp [Ctx.stroke, Ctx.emit, hl],
    by simp [Ctx.stroke, Ctx.emit, hl', hs, hp rfl], ?_⟩, fun hb => hp hb⟩
  simp [saveDepth_append, hd, saveDepth]

theorem Sim.fill (h : Sim S S' L L' true P c c') :
    Sim S S' L L' true P c.fill c'.fill := by
  obtain ⟨hs, hk, hk', ⟨N, hl, hl', hd⟩, hp⟩ := h
  refine ⟨hs, hk, hk', ⟨N ++ [.fill c.path c.settings], by simp [Ctx.fill, Ctx.emit, hl],
    by simp [Ctx.fill, Ctx.emit, hl', hs, hp rfl], ?_⟩, fun hb => hp hb⟩
  simp [saveDepth_append, hd, saveDepth]

theorem Sim.fillRect (x y w h0 : α) (h : Sim S S' L L' b P c c') :
    Sim S S' L L' b P (c.fillRect x y w h0) (c'.fillRect x y w h0) := by
  obtain ⟨hs, hk, hk', ⟨N, hl, hl', hd⟩, hp⟩ := h
  refine ⟨hs, hk, hk', ⟨N ++ [.fillRect x y w h0 c.settings],
    by simp [Ctx.fillRect, Ctx.emit, hl], by simp [Ctx.fillRect, Ctx.emit, hl', hs], ?_⟩,
    fun hb => hp hb⟩
  simp [saveDepth_append, hd, saveDepth]

theorem Sim.fillText (text : String) (x y : α) (h : Sim S S' L L' b P c c') :
    Sim S S' L L' b P (c.fillText text x y) (c'.fillText text x y) := by
  obtain ⟨hs, hk, hk', ⟨N, hl, hl', hd⟩, hp⟩ := h
  refine ⟨hs, hk, hk', ⟨N ++ [.fillText text x y c.settings],
    by simp [Ctx.fillText, Ctx.emit, hl], by simp [Ctx.fillText, Ctx.emit, hl', hs], ?_⟩,
    fun hb => hp hb⟩
  simp [saveDepth_append, hd, saveDepth]

theorem Sim.createRadialGradient (x0 y0 r0 x1 y1 r1 : α) (h : Sim S S' L L' b P c c') :
    Sim S S' L L' b P (c.createRadialGradient x0 y0 r0 x1 y1 r1).2
      (c'.createRadialGradient x0 y0 r0 x1 y1 r1).2 := by
  obtain ⟨hs, hk, hk', ⟨N, hl, hl', hd⟩, hp⟩ := h
  refine ⟨hs, hk, hk', ⟨N ++ [.createRadialGradient x0 y0 r0 x1 y1 r1],
    by simp [Ctx.createRadialGradient, Ctx.emit, hl],
    by simp [Ctx.createRadialGradient, Ctx.emit, hl'], ?_⟩, fun hb => hp hb⟩
  simp [saveDepth_append, hd, saveDepth]

end CanvasLemmas

section LoopLemmas

variable {α σ : Type} [LinearOrderedField α] [FloorRing α]

theorem forLt_eq (bound step : α) (hstep : 0 < step) (body : α → σ → σ) (x : α) (s : σ) :
    forLt bound step hstep body x s =
      if x < bound then forLt bound step hstep body (x + step) (body x s) else s := by
  rw [forLt]

theorem forLe_eq (bound step : α) (hstep : 0 < step) (body : α → σ → σ) (k : α) (s : σ) :
    forLe bound step hstep body k s =
      if k ≤ bound then forLe bound step hstep body (k + step) (body k s) else s := by
  rw [forLe]

theorem forLt_rel (R : σ → σ → Prop) (bound step : α) (hstep : 0 < step) (body : α → σ → σ)
    (hbody : ∀ k s s', R s s' → R (body k s) (body k s')) (x : α) (s s' : σ) (h : R s s') :
    R (forLt bound step hstep body x s) (forLt bound step hstep body x s') := by
  induction x, s using forLt.induct bound step hstep body generalizing s' with
  | case1 x s hx ih =>
    rw [forLt_eq _ _ _ _ x s, forLt_eq _ _ _ _ x s', if_pos hx, if_pos hx]
    exact ih _ (hbody x s s' h)
  | case2 x s hx =>
    rw [forLt_eq _ _ _ _ x s, forLt_eq _ _ _ _ x s', if_neg hx, if_neg hx]
    exact h

theorem forLe_rel (R : σ → σ → Prop) (bound step : α) (hstep : 0 < step) (body : α → σ → σ)
    (hbody : ∀ k s s', R s s' → R (body k s) (body k s')) (x : α) (s s' : σ) (h : R s s') :
    R (forLe bound step hstep body x s) (forLe bound step hstep body x s') := by
  induction x, s using forLe.induct bound step hstep body generalizing s' with
  | case1 x s hx ih =>
    rw [forLe_eq _ _ _ _ x s, forLe_eq _ _ _ _ x s', if_pos hx, if_pos hx]
    exact ih _ (hbody x s s' h)
  | case2 x s hx =>
    rw [forLe_eq _ _ _ _ x s, forLe_eq _ _ _ _ x s', if_neg hx, if_neg hx]
    exact h

/-- A property kept by every iteration at a value the loop can take, from
`start` on and below `bound`, holds after the loop. -/
theorem forLt_inv (Q : σ → Prop) (bound step : α) (hstep : 0 < step) (body : α → σ → σ)
    (start : α) (hbody : ∀ k s, start ≤ k → k < bound → Q s → Q (body k s)) (x : α) (s : σ)
    (hx : start ≤ x) (h : Q s) : Q (forLt bound step hstep body x s) := by
  induction x, s using forLt.induct bound step hstep body with
  | case1 x s hlt ih =>
    rw [forLt_eq, if_pos hlt]
    exact ih (by linarith) (hbody x s hx hlt h)
  | case2 x s hlt =>
    rw [forLt_eq, if_neg hlt]
    exact h

theorem forLe_inv (Q : σ → Prop) (bound step : α) (hstep : 0 < step) (body : α → σ → σ)
    (start : α) (hbody : ∀ k s, start ≤ k → k ≤ bound → Q s → Q (body k s)) (x : α) (s : σ)
    (hx : start ≤ x) (h : Q s) : Q (forLe bound step hstep body x s) := by
  induction x, s using forLe.induct bound step hstep body with
  | case1 x s hle ih =>
    rw [forLe_eq, if_pos hle]
    exact ih (by linarith) (hbody x s hx hle h)
  | case2 x s hle =>
    rw [forLe_eq, if_neg hle]
    exact h

end LoopLemmas

section LayerLemmas

variable {α : Type} [LinearOrderedField α] [FloorRing α]
  {S S' : List (Settings α)} {L L' : List (Instr α)} {b : Bool} {c c' : Ctx α}

theorem Sim.refl (c : Ctx α) : Sim c.stack c.stack c.log c.log true [] c c :=
  ⟨rfl, rfl, rfl, ⟨[], by simp, by simp, rfl⟩, fun _ => rfl⟩

theorem drawGrid_sim (h : Sim S S' L L' b [] c c') :
    Sim S S' L L' false [] (drawGrid c) (drawGrid c') ∧ (drawGrid c).settings = c.settings := by
  have h1 := (((h.save.setGlobalAlpha 0.12).setStrokeStyle (.color "#1c2a4a")).setLineWidth
    1).weaken
  have h2 := forLt_rel (Sim S S' L L' false [c.settings]) (WIDTH : α) 32 (by norm_num) _
    (fun x _ _ hs => (((hs.beginPath.moveTo x 0).lineTo x (HEIGHT : α)).stroke).weaken) 0 _ _ h1
  have h3 := forLt_rel (Sim S S' L L' false [c.settings]) (HEIGHT : α) 32 (by norm_num) _
    (fun y _ _ hs => (((hs.beginPath.moveTo 0 y).lineTo (WIDTH : α) y).stroke).weaken) 0 _ _ h2
  exact h3.restore

theorem drawGlow_sim (M : JsMath α) (h : Sim S S' L L' b [] c c') :
    Sim S S' L L' false [] (drawGlow M c) (drawGlow M c') ∧
      (drawGlow M c).settings = c.settings := by
  have h1 := (h.save.createRadialGradient cx cy (r * 0.4) cx cy (r * 1.1)).setFillStyle
    (.gradient (((Gradient.radial cx cy (r * 0.4) cx cy (r * 1.1) []).addColorStop 0
      "rgba(14, 165, 233, 0.1)").addColorStop 1 "rgba(14, 165, 233, 0)"))
  have h2 := ((h1.beginPath.arc cx cy (r * 1.1) 0 (M.PI * 2)).fill).weaken
  exact h2.restore

theorem drawSphere_sim (M : JsMath α) (h : Sim S S' L L' b [] c c') :
    Sim S S' L L' false [] (drawSphere M c) (drawSphere M c') ∧
      (drawSphere M c).settings = c.settings := by
  have h1 := (((h.save.setStrokeStyle (.color "#0ea5e9")).setLineWidth 2).setShadowColor
    "#06b6d4").setShadowBlur 20
  have h2 := ((h1.beginPath.arc cx cy r 0 (M.PI * 2)).stroke).weaken
  exact h2.restore

theorem drawLatLon_sim (M : JsMath α) (t : α) (h : Sim S S' L L' b [] c c') :
    Sim S S' L L' false [] (drawLatLon M t c) (drawLatLon M t c') ∧
      (drawLatLon M t c).settings = c.settings := by
  have h1 := ((h.save.setStrokeStyle (.color "rgba(56, 189, 248, 0.7)")).setLineWidth
    1.2).weaken
  have h2 := forLt_rel (Sim S S' L L' false [c.settings]) (8 : α) 1 (by norm_num) _
    (fun i _ _ hs => ((hs.beginPath.ellipse cx (cy + r * M.sin (latitude M i)) r
      (max (ringRy M (latitude M i)) 0) 0 0 (M.PI * 2)).stroke).weaken) 1 _ _ h1
  have h3 := forLt_rel (Sim S S' L L' false [c.settings]) (14 : α) 1 (by norm_num) _
    (fun j _ _ hs => ((forLe_rel (Sim S S' L L' true [c.settings]) (r : α) 2 (by norm_num)
      (fun k ctx =>
        if k = -r then
          ctx.moveTo (meridianX M (M.cos ((j / 14) * M.PI * 2 + rotation M t)) k) (cy + k)
        else ctx.lineTo (meridianX M (M.cos ((j / 14) * M.PI * 2 + rotation M t)) k) (cy + k))
      (fun k _ _ hk => by
        by_cases hkr : k = -r
        · simp only [hkr, if_true]
          exact hk.moveTo _ _
        · simp only [hkr, if_false]
          exact hk.lineTo _ _) (-r) _ _ hs.beginPath).stroke).weaken) 0 _ _ h2
  exact h3.restore

theorem drawNodes_sim (M : JsMath α) (t : α) (h : Sim S S' L L' b [] c c') :
    Sim S S' L L' false [] (drawNodes M t c) (drawNodes M t c') ∧
      (drawNodes M t c).settings = c.settings := by
  have h1 := h.save.weaken
  have h2 := forLt_rel (Sim S S' L L' false [c.settings]) (90 : α) 1 (by norm_num) _
    (fun n _ _ hs => (((((hs.setFillStyle (.color "#22d3ee")).setGlobalAlpha 0.8).beginPath.arc
      (cx + r * (0.85 + 0.1 * M.sin (n * 0.7 + t * 2)) *
        M.cos ((n / 90) * M.PI * 2 + rotation M t * 1.6))
      (cy + r * (0.85 + 0.1 * M.sin (n * 0.7 + t * 2)) *
        M.sin ((n / 90) * M.PI * 2 + rotation M t * 1.6) * 0.6)
      (nodeSize M ((n / 90) * M.PI * 2 + rotation M t * 1.6) t) 0 (M.PI * 2)).fill).weaken))
    0 _ _ h1
  exact h2.restore

theorem drawCircuit_sim (M : JsMath α) (t : α) (h : Sim S S' L L' b [] c c') :
    Sim S S' L L' false [] (drawCircuit M t c) (drawCircuit M t c') ∧
      (drawCircuit M t c).settings = c.settings := by
  have h1 := ((h.save.setGlobalAlpha 0.25).setStrokeStyle (.color "#60a5fa")).weaken
  have h2 := forLt_rel (Sim S S' L L' false [c.settings]) (30 : α) 1 (by norm_num) _
    (fun i _ _ hs => (((hs.beginPath.moveTo
      (cx + r * M.cos ((i / 30) * M.PI * 2 + rotation M t * 0.5))
      (cy + r * M.sin ((i / 30) * M.PI * 2 + rotation M t * 0.5))).lineTo
      (cx + (r + 120 + 40 * M.sin (t * 2 + i)) * M.cos ((i / 30) * M.PI * 2 + rotation M t * 0.5))
      (cy + (r + 120 + 40 * M.sin (t * 2 + i)) *
        M.sin ((i / 30) * M.PI * 2 + rotation M t * 0.5))).stroke).weaken) 0 _ _ h1
  exact h2.restore

theorem drawTitle_sim (h : Sim S S' L L' b [] c c') :
    Sim S S' L L' false [] (drawTitle c) (drawTitle c') ∧
      (drawTitle c).settings = c.settings := by
  have h1 := (((h.save.setTextAlign "center").setFillStyle (.color "#e2e8f0")).setFont
    "800 54px system-ui, -apple-system, Segoe UI, Roboto").fillText "AI COVERS THE WORLD"
    ((WIDTH : α) / 2) ((HEIGHT : α) * 0.1)
  have h2 := (((h1.setFont "600 22px system-ui, -apple-system, Segoe UI, Roboto").setFillStyle
    (.color "#93c5fd")).fillText "Instagram Reel ? 720?1280 ? 5s ? 24fps" ((WIDTH : α) / 2)
    ((HEIGHT : α) * 0.14)).weaken
  exact h2.restore

theorem drawFooter_sim (M : JsMath α) (t : α) (h : Sim S S' L L' b [] c c') :
    Sim S S' L L' false [] (drawFooter M t c) (drawFooter M t c') ∧
      (drawFooter M t c).settings = c.settings := by
  have h1 := ((((h.save.setGlobalAlpha 0.8).setTextAlign "center").setFont
    "700 26px system-ui, -apple-system, Segoe UI, Roboto").setFillStyle
    (.color ("rgba(34, 211, 238, " ++ M.toString (0.6 + (0.5 + 0.5 * M.sin (t * 6)) * 0.3) ++
      ")"))).fillText "The AI era is global." ((WIDTH : α) / 2) ((HEIGHT : α) * 0.9)
  exact h1.weaken.restore

end LayerLemmas

section Independence

variable {α : Type} [LinearOrderedField α] [FloorRing α]

theorem drawBackground_sim (c c' : Ctx α) (h : c.settings.sameButFill c'.settings) :
    Sim c.stack c'.stack c.log c'.log false [] (drawBackground c) (drawBackground c') ∧
    (drawBackground c).settings = { c.settings with fillStyle := backgroundStyle } ∧
    (drawBackground c).log = c.log ++
      [.createLinearGradient 0 0 0 (HEIGHT : α),
       .fillRect 0 0 (WIDTH : α) (HEIGHT : α)
        { c.settings with fillStyle := backgroundStyle }] := by
  obtain ⟨h1, h2, h3, h4, h5, h6, h7⟩ := h
  have hset : ({ c.settings with fillStyle := backgroundStyle } : Settings α)
      = { c'.settings with fillStyle := backgroundStyle } := by
    cases hc : c.settings
    cases hc' : c'.settings
    rw [hc, hc'] at h1 h2 h3 h4 h5 h6 h7
    simp only at h1 h2 h3 h4 h5 h6 h7
    simp [h1, h2, h3, h4, h5, h6, h7]
  refine ⟨⟨hset, rfl, rfl, ⟨[.createLinearGradient 0 0 0 (HEIGHT : α),
       .fillRect 0 0 (WIDTH : α) (HEIGHT : α)
        { c.settings with fillStyle := backgroundStyle }], ?_, ?_, rfl⟩,
    fun hb => by cases hb⟩, rfl, ?_⟩
  · simp [drawBackground, Ctx.createLinearGradient, Ctx.fillRect, Ctx.emit, Ctx.setFillStyle,
      Gradient.addColorStop, backgroundStyle]
  · rw [hset]
    simp [drawBackground, Ctx.createLinearGradient, Ctx.fillRect, Ctx.emit, Ctx.setFillStyle,
      Gradient.addColorStop, backgroundStyle]
  · simp [drawBackground, Ctx.createLinearGradient, Ctx.fillRect, Ctx.emit, Ctx.setFillStyle,
      Gradient.addColorStop, backgroundStyle]

/-- The nine layers drawn over the background keep two contexts in step and
put the settings back. -/
theorem drawLayers_sim {S S' : List (Settings α)} {L L' : List (Instr α)} {b : Bool}
    {c c' : Ctx α} (M : JsMath α) (t : α) (h : Sim S S' L L' b [] c c') :
    Sim S S' L L' false []
      (drawFooter M t (drawTitle (drawCircuit M t (drawNodes M t (drawLatLon M t
        (drawSphere M (drawGlow M (drawGrid c))))))))
      (drawFooter M t (drawTitle (drawCircuit M t (drawNodes M t (drawLatLon M t
        (drawSphere M (drawGlow M (drawGrid c')))))))) ∧
    (drawFooter M t (drawTitle (drawCircuit M t (drawNodes M t (drawLatLon M t
        (drawSphere M (drawGlow M (drawGrid c)))))))).settings = c.settings := by
  have h1 := drawGrid_sim h
  have h2 := drawGlow_sim M h1.1
  have h3 := drawSphere_sim M h2.1
  have h4 := drawLatLon_sim M t h3.1
  have h5 := drawNodes_sim M t h4.1
  have h6 := drawCircuit_sim M t h5.1
  have h7 := drawTitle_sim h6.1
  have h8 := drawFooter_sim M t h7.1
  exact ⟨h8.1, by rw [h8.2, h7.2, h6.2, h5.2, h4.2, h3.2, h2.2, h1.2]⟩

theorem drawFrame_sim (M : JsMath α) (frameIndex : α) (c c' : Ctx α)
    (h : c.settings.sameButFill c'.settings) :
    Sim c.stack c'.stack c.log c'.log false [] (drawFrame M c frameIndex)
      (drawFrame M c' frameIndex) ∧
    (drawFrame M c frameIndex).settings = { c.settings with fillStyle := backgroundStyle } := by
  have h0 := drawBackground_sim c c' h
  have h1 := drawLayers_sim M (frameTime frameIndex) h0.1
  exact ⟨h1.1, h1.2.trans h0.2.1⟩

theorem sameButFill_refl (a : Settings α) : a.sameButFill a :=
  ⟨rfl, rfl, rfl, rfl, rfl, rfl, rfl⟩

theorem sameButFill_frames (M : JsMath α) (earlier : List α) (c : Ctx α)
    (h : (Ctx.fresh : Ctx α).settings.sameButFill c.settings) :
    (Ctx.fresh : Ctx α).settings.sameButFill (earlier.foldl (drawFrame M) c).settings := by
  induction earlier generalizing c with
  | nil => exact h
  | cons j earlier ih =>
    apply ih
    rw [(drawFrame_sim M j c c (sameButFill_refl _)).2]
    exact h

end Independence

section SafeLemmas

variable {α : Type} [LinearOrderedField α] [FloorRing α] {c : Ctx α}

theorem Safe.snoc_ok {l : List (Instr α)} (h : ∀ instr ∈ l, instr.radiiOk) (i : Instr α)
    (hi : i.radiiOk) : ∀ instr ∈ l ++ [i], instr.radiiOk := by
  intro instr hmem
  rcases List.mem_append.mp hmem with hm | hm
  · exact h instr hm
  · rw [List.mem_singleton] at hm
    rw [hm]
    exact hi

theorem Safe.save_ok (h : Safe c) : Safe c.save := Safe.snoc_ok h _ trivial

theorem Safe.restore_ok (h : Safe c) : Safe c.restore := by
  unfold Ctx.restore
  split
  · exact Safe.snoc_ok h _ trivial
  · exact Safe.snoc_ok h _ trivial

theorem Safe.setFillStyle_ok (v : Style α) (h : Safe c) : Safe (c.setFillStyle v) := h

theorem Safe.setStrokeStyle_ok (v : Style α) (h : Safe c) : Safe (c.setStrokeStyle v) := h

theorem Safe.setGlobalAlpha_ok (v : α) (h : Safe c) : Safe (c.setGlobalAlpha v) := h

theorem Safe.setLineWidth_ok (v : α) (h : Safe c) : Safe (c.setLineWidth v) := h

theorem Safe.setShadowColor_ok (v : String) (h : Safe c) : Safe (c.setShadowColor v) := h

theorem Safe.setShadowBlur_ok (v : α) (h : Safe c) : Safe (c.setShadowBlur v) := h

theorem Safe.setTextAlign_ok (v : String) (h : Safe c) : Safe (c.setTextAlign v) := h

theorem Safe.setFont_ok (v : String) (h : Safe c) : Safe (c.setFont v) := h

theorem Safe.beginPath_ok (h : Safe c) : Safe c.beginPath := Safe.snoc_ok h _ trivial

theorem Safe.moveTo_ok (x y : α) (h : Safe c) : Safe (c.moveTo x y) := Safe.snoc_ok h _ trivial

theorem Safe.lineTo_ok (x y : α) (h : Safe c) : Safe (c.lineTo x y) := Safe.snoc_ok h _ trivial

theorem Safe.arc_ok (x y radius a0 a1 : α) (hr : 0 ≤ radius) (h : Safe c) :
    Safe (c.arc x y radius a0 a1) := Safe.snoc_ok h _ hr

theorem Safe.ellipse_ok (x y rx ry rot a0 a1 : α) (hx : 0 ≤ rx) (hy : 0 ≤ ry) (h : Safe c) :
    Safe (c.ellipse x y rx ry rot a0 a1) := Safe.snoc_ok h _ ⟨hx, hy⟩

theorem Safe.stroke_ok (h : Safe c) : Safe c.stroke := Safe.snoc_ok h _ trivial

theorem Safe.fill_ok (h : Safe c) : Safe c.fill := Safe.snoc_ok h _ trivial

theorem Safe.fillRect_ok (x y w h0 : α) (h : Safe c) : Safe (c.fillRect x y w h0) :=
  Safe.snoc_ok h _ trivial

theorem Safe.fillText_ok (text : String) (x y : α) (h : Safe c) : Safe (c.fillText text x y) :=
  Safe.snoc_ok h _ trivial

theorem Safe.createLinearGradient_ok (x0 y0 x1 y1 : α) (h : Safe c) :
    Safe (c.createLinearGradient x0 y0 x1 y1).2 := Safe.snoc_ok h _ trivial

theorem Safe.createRadialGradient_ok (x0 y0 r0 x1 y1 r1 : α) (h0 : 0 ≤ r0) (h1 : 0 ≤ r1)
    (h : Safe c) : Safe (c.createRadialGradient x0 y0 r0 x1 y1 r1).2 :=
  Safe.snoc_ok h _ ⟨h0, h1⟩

theorem r_eq : (r : α) = 230.4 := by
  unfold r WIDTH HEIGHT
  rw [min_eq_left (by norm_num)]
  norm_num

theorem r_pos : (0 : α) < r := by
  rw [r_eq]
  norm_num

theorem drawBackground_safe (h : Safe c) : Safe (drawBackground c) :=
  ((h.createLinearGradient_ok 0 0 0 (HEIGHT : α)).setFillStyle_ok _).fillRect_ok 0 0 _ _

theorem drawGrid_safe (h : Safe c) : Safe (drawGrid c) := by
  have h1 := ((h.save_ok.setGlobalAlpha_ok 0.12).setStrokeStyle_ok (.color "#1c2a4a")).setLineWidth_ok 1
  have h2 := forLt_inv Safe (WIDTH : α) 32 (by norm_num) _ 0
    (fun x _ _ _ hs => ((hs.beginPath_ok.moveTo_ok x 0).lineTo_ok x (HEIGHT : α)).stroke_ok) 0 _ le_rfl h1
  have h3 := forLt_inv Safe (HEIGHT : α) 32 (by norm_num) _ 0
    (fun y _ _ _ hs => ((hs.beginPath_ok.moveTo_ok 0 y).lineTo_ok (WIDTH : α) y).stroke_ok) 0 _ le_rfl h2
  exact h3.restore_ok

theorem drawGlow_safe (M : JsMath α) (h : Safe c) : Safe (drawGlow M c) := by
  have hr := (r_pos (α := α)).le
  have h1 := (h.save_ok.createRadialGradient_ok cx cy (r * 0.4) cx cy (r * 1.1)
    (mul_nonneg hr (by norm_num)) (mul_nonneg hr (by norm_num))).setFillStyle_ok
    (.gradient (((Gradient.radial cx cy (r * 0.4) cx cy (r * 1.1) []).addColorStop 0
      "rgba(14, 165, 233, 0.1)").addColorStop 1 "rgba(14, 165, 233, 0)"))
  exact ((h1.beginPath_ok.arc_ok cx cy (r * 1.1) 0 (M.PI * 2)
    (mul_nonneg hr (by norm_num))).fill_ok).restore_ok

theorem drawSphere_safe (M : JsMath α) (h : Safe c) : Safe (drawSphere M c) := by
  have h1 := (((h.save_ok.setStrokeStyle_ok (.color "#0ea5e9")).setLineWidth_ok 2).setShadowColor_ok
    "#06b6d4").setShadowBlur_ok 20
  exact ((h1.beginPath_ok.arc_ok cx cy r 0 (M.PI * 2) r_pos.le).stroke_ok).restore_ok

theorem drawLatLon_safe (M : JsMath α) (t : α) (h : Safe c) : Safe (drawLatLon M t c) := by
  have h1 := (h.save_ok.setStrokeStyle_ok (.color "rgba(56, 189, 248, 0.7)")).setLineWidth_ok 1.2
  have h2 := forLt_inv Safe (8 : α) 1 (by norm_num) _ 1
    (fun i _ _ _ hs => (hs.beginPath_ok.ellipse_ok cx (cy + r * M.sin (latitude M i)) r
      (max (ringRy M (latitude M i)) 0) 0 0 (M.PI * 2) r_pos.le (le_max_right _ _)).stroke_ok)
    1 _ le_rfl h1
  have h3 := forLt_inv Safe (14 : α) 1 (by norm_num) _ 0
    (fun j _ _ _ hs => (forLe_inv Safe (r : α) 2 (by norm_num)
      (fun k ctx =>
        if k = -r then
          ctx.moveTo (meridianX M (M.cos ((j / 14) * M.PI * 2 + rotation M t)) k) (cy + k)
        else ctx.lineTo (meridianX M (M.cos ((j / 14) * M.PI * 2 + rotation M t)) k) (cy + k))
      (-r)
      (fun k _ _ _ hk => by
        by_cases hkr : k = -r
        · simp only [hkr, if_true]
          exact hk.moveTo_ok _ _
        · simp only [hkr, if_false]
          exact hk.lineTo_ok _ _) (-r) _ le_rfl hs.beginPath_ok).stroke_ok) 0 _ le_rfl h2
  exact h3.restore_ok

theorem drawNodes_safe (M : JsMath α) (hsin : ∀ x, -1 ≤ M.sin x) (t : α) (h : Safe c) :
    Safe (drawNodes M t c) := by
  have hsize : ∀ a, 0 ≤ nodeSize M a t := by
    intro a
    unfold nodeSize
    have := hsin (a * 3 + t * 5)
    norm_num
    linarith
  have h2 := forLt_inv Safe (90 : α) 1 (by norm_num) _ 0
    (fun n _ _ _ hs => ((((hs.setFillStyle_ok (.color "#22d3ee")).setGlobalAlpha_ok 0.8).beginPath_ok.arc_ok
      (cx + r * (0.85 + 0.1 * M.sin (n * 0.7 + t * 2)) *
        M.cos ((n / 90) * M.PI * 2 + rotation M t * 1.6))
      (cy + r * (0.85 + 0.1 * M.sin (n * 0.7 + t * 2)) *
        M.sin ((n / 90) * M.PI * 2 + rotation M t * 1.6) * 0.6)
      (nodeSize M ((n / 90) * M.PI * 2 + rotation M t * 1.6) t) 0 (M.PI * 2)
      (hsize _)).fill_ok)) 0 _ le_rfl h.save_ok
  exact h2.restore_ok

theorem drawCircuit_safe (M : JsMath α) (t : α) (h : Safe c) : Safe (drawCircuit M t c) := by
  have h1 := (h.save_ok.setGlobalAlpha_ok 0.25).setStrokeStyle_ok (.color "#60a5fa")
  have h2 := forLt_inv Safe (30 : α) 1 (by norm_num) _ 0
    (fun i _ _ _ hs => ((hs.beginPath_ok.moveTo_ok
      (cx + r * M.cos ((i / 30) * M.PI * 2 + rotation M t * 0.5))
      (cy + r * M.sin ((i / 30) * M.PI * 2 + rotation M t * 0.5))).lineTo_ok
      (cx + (r + 120 + 40 * M.sin (t * 2 + i)) * M.cos ((i / 30) * M.PI * 2 + rotation M t * 0.5))
      (cy + (r + 120 + 40 * M.sin (t * 2 + i)) *
        M.sin ((i / 30) * M.PI * 2 + rotation M t * 0.5))).stroke_ok) 0 _ le_rfl h1
  exact h2.restore_ok

theorem drawTitle_safe (h : Safe c) : Safe (drawTitle c) := by
  have h1 := (((h.save_ok.setTextAlign_ok "center").setFillStyle_ok (.color "#e2e8f0")).setFont_ok
    "800 54px system-ui, -apple-system, Segoe UI, Roboto").fillText_ok "AI COVERS THE WORLD"
    ((WIDTH : α) / 2) ((HEIGHT : α) * 0.1)
  exact (((h1.setFont_ok "600 22px system-ui, -apple-system, Segoe UI, Roboto").setFillStyle_ok
    (.color "#93c5fd")).fillText_ok "Instagram Reel ? 720?1280 ? 5s ? 24fps" ((WIDTH : α) / 2)
    ((HEIGHT : α) * 0.14)).restore_ok

theorem drawFooter_safe (M : JsMath α) (t : α) (h : Safe c) : Safe (drawFooter M t c) :=
  (((((h.save_ok.setGlobalAlpha_ok 0.8).setTextAlign_ok "center").setFont_ok
    "700 26px system-ui, -apple-system, Segoe UI, Roboto").setFillStyle_ok
    (.color ("rgba(34, 211, 238, " ++ M.toString (0.6 + (0.5 + 0.5 * M.sin (t * 6)) * 0.3) ++
      ")"))).fillText_ok "The AI era is global." ((WIDTH : α) / 2) ((HEIGHT : α) * 0.9)).restore_ok

theorem drawFrame_safe (M : JsMath α) (hsin : ∀ x, -1 ≤ M.sin x) (frameIndex : α)
    (h : Safe c) : Safe (drawFrame M c frameIndex) :=
  drawFooter_safe M _ (drawTitle_safe (drawCircuit_safe M _ (drawNodes_safe M hsin _
    (drawLatLon_safe M _ (drawSphere_safe M (drawGlow_safe M (drawGrid_safe
      (drawBackground_safe h))))))))

theorem frames_safe (M : JsMath α) (hsin : ∀ x, -1 ≤ M.sin x) (frames : List α) (c : Ctx α)
    (h : Safe c) : Safe (frames.foldl (drawFrame M) c) := by
  induction frames generalizing c with
  | nil => exact h
  | cons j frames ih => exact ih _ (drawFrame_safe M hsin j h)

/-- A `for (k = start; k <= bound; k += step)` loop runs its body only at
values from `start` to `bound`. -/
theorem forLe_guard {σ : Type} (bound step : α) (hstep : 0 < step) (body : α → σ → σ)
    (start x : α) (s : σ) (hx : start ≤ x) :
    forLe bound step hstep body x s =
      forLe bound step hstep (fun k s => if start ≤ k ∧ k ≤ bound then body k s else s) x s := by
  induction x, s using forLe.induct bound step hstep body with
  | case1 x s hle ih =>
    rw [forLe_eq _ _ _ body, forLe_eq _ _ _ (fun k s => if start ≤ k ∧ k ≤ bound then body k s
      else s), if_pos hle, if_pos hle, ih (by linarith)]
    simp only [hx, hle, and_self, if_true]
  | case2 x s hle =>
    rw [forLe_eq _ _ _ body, forLe_eq _ _ _ (fun k s => if start ≤ k ∧ k ≤ bound then body k s
      else s), if_neg hle, if_neg hle]

end SafeLemmas

/-! ## Claims -/

/-- C7: with FPS = 24, DURATION_SECONDS = 5 and FRAME_COUNT = FPS *
DURATION_SECONDS = 120, the frame time `t(i) = i / FPS` is strictly increasing
in the frame index, `t(0) = 0`, and `t(FRAME_COUNT - 1)` is
`DURATION_SECONDS - 1/FPS = 119/24`, in exact rational arithmetic. -/
theorem frameTime_spec :
    FPS = 24 ∧ DURATION_SECONDS = 5 ∧ FRAME_COUNT = FPS * DURATION_SECONDS ∧
    FRAME_COUNT = 120 ∧
    StrictMono (fun i : Nat => frameTime (i : ℚ)) ∧
    frameTime (0 : ℚ) = 0 ∧
    frameTime (((FRAME_COUNT - 1 : Nat) : ℚ)) = (DURATION_SECONDS : ℚ) - 1 / (FPS : ℚ) ∧
    frameTime (((FRAME_COUNT - 1 : Nat) : ℚ)) = 119 / 24 := by
  refine ⟨rfl, rfl, rfl, rfl, ?_, ?_, ?_, ?_⟩
  · intro i j hij
    have h : (i : ℚ) < (j : ℚ) := by exact_mod_cast hij
    simp only [frameTime, FPS]
    exact div_lt_div_of_pos_right h (by norm_num)
  · simp [frameTime]
  · simp only [frameTime, FRAME_COUNT, FPS, DURATION_SECONDS]
    norm_num
  · simp only [frameTime, FRAME_COUNT, FPS, DURATION_SECONDS]
    norm_num

/-- C8: starting from the empty log, after any sequence of engine log messages
the stored log is exactly the most recent `min n 201` messages in arrival
order: it is the input with only its oldest entries dropped, its length is
`min n 201` and never exceeds 201, the newest message is last, and each single
update keeps a suffix of the previous log and appends the new message. -/
theorem logAfter_spec (messages : List String) :
    logAfter messages = messages.drop (messages.length - min messages.length 201) ∧
    (logAfter messages).length = min messages.length 201 ∧
    (logAfter messages).length ≤ 201 ∧
    logAfter messages <:+ messages ∧
    (logAfter messages).getLast? = messages.getLast? ∧
    (∀ m : String, ∃ kept, kept <:+ logAfter messages ∧
      logAfter (messages ++ [m]) = kept ++ [m]) := by
  have hd : messages.length - min messages.length 201 = messages.length - 201 := by
    omega
  have hlen : (logAfter messages).length = min messages.length 201 := by
    rw [logAfter_eq_drop, List.length_drop]; omega
  refine ⟨by rw [hd]; exact logAfter_eq_drop messages, hlen, by omega, ?_, ?_, ?_⟩
  · rw [logAfter_eq_drop]; exact List.drop_suffix _ _
  · rcases List.eq_nil_or_concat messages with h | ⟨ms, m, h⟩
    · subst h; rfl
    · subst h
      rw [List.concat_eq_append, logAfter_snoc, onLog]
      simp
  · intro m
    rw [logAfter_snoc, onLog]
    by_cases h : (logAfter messages).length > 200
    · rw [if_pos h]
      exact ⟨sliceLast (logAfter messages) 200, List.drop_suffix _ _, by simp⟩
    · rw [if_neg h]
      exact ⟨_, List.suffix_refl _, by simp⟩

/-- C3: for every frame index below 120 the staged name is `frame`, then the
decimal of `i + 1` left-padded with zeros to exactly four characters, then
`.png`; the first and last names are frame0001.png and frame0120.png; the
naming is strictly increasing in lexicographic string order, hence injective,
and the 120 names in index order are sorted. -/
theorem frameName_spec :
    (∀ i, i < 120 →
      frameName i = "frame" ++
        String.mk (List.replicate (4 - (Nat.repr (i + 1)).length) '0' ++
          (Nat.repr (i + 1)).toList) ++ ".png" ∧
      (List.replicate (4 - (Nat.repr (i + 1)).length) '0' ++
          (Nat.repr (i + 1)).toList).length = 4) ∧
    frameName 0 = "frame0001.png" ∧
    frameName 119 = "frame0120.png" ∧
    (∀ i j, i < j → j < 120 → frameName i < frameName j) ∧
    (∀ i j, i < 120 → j < 120 → frameName i = frameName j → i = j) ∧
    ((List.range 120).map frameName).Sorted (· < ·) := by
  have hlt := frameName_lt
  refine ⟨?_, by decide, by decide, hlt, ?_, ?_⟩
  · decide
  · intro i j hi hj h
    rcases Nat.lt_trichotomy i j with hij | hij | hij
    · exact absurd h (ne_of_lt (hlt i j hij hj))
    · exact hij
    · exact absurd h.symm (ne_of_lt (hlt j i hij hi))
  · rw [List.Sorted, List.pairwise_map, List.pairwise_iff_getElem]
    intro i j hi hj hij
    simp only [List.getElem_range]
    simp only [List.length_range] at hi hj
    exact hlt i j hij hj

/-- C4: within one run the values passed to `setPercent` are an initial part of
0, then `round(((i+1)/120)*40)` for i = 0..119, then 85, then 100 (all of it
when the `try` body completes); the sequence starts with 0, is non-decreasing
and stays in [0, 100]; the staging values lie in [0, 40] and end at 40; and 100
is set exactly when the `try` body completes without throwing, which is exactly
when the `catch` block does not run (`setError` is called once, at run start).
The rounding is exact arithmetic; an error below 1/6 in its argument, far more
than floating point introduces, leaves every staging value unchanged. -/
theorem progress_spec (env : Env) (s : State) :
    percents (generate env s).events <+:
      (0 :: ((List.range' 0 FRAME_COUNT).map stagePercent ++ [85, 100])) ∧
    ((generateBody env (generateStart s)).result = .ok () →
      percents (generate env s).events =
        0 :: ((List.range' 0 FRAME_COUNT).map stagePercent ++ [85, 100])) ∧
    (percents (generate env s).events).head? = some 0 ∧
    (percents (generate env s).events).Sorted (· ≤ ·) ∧
    (∀ p ∈ percents (generate env s).events, 0 ≤ p ∧ p ≤ 100) ∧
    (∀ i, i < FRAME_COUNT →
      stagePercent i = ⌊(((i : ℚ) + 1) / 120) * 40 + 1 / 2⌋ ∧
      0 ≤ stagePercent i ∧ stagePercent i ≤ 40) ∧
    stagePercent (FRAME_COUNT - 1) = 40 ∧
    (∀ (i : Nat) (δ : ℚ), |δ| < 1 / 6 →
      ⌊((((i : ℚ) + 1) / 120) * 40 + δ) + 1 / 2⌋ = stagePercent i) ∧
    ((100 : Int) ∈ percents (generate env s).events ↔
      (generateBody env (generateStart s)).result = .ok ()) ∧
    ((generateBody env (generateStart s)).result = .ok () ↔
      errors (generate env s).events = [""]) := by
  rcases generate_events env s with ⟨ld, rest, tail, hev, hld, hrest, hok, herr⟩
  have hps := percents_generate env s
  rcases hps with ⟨t, hpt, htp, htok, hterr⟩
  have hpre : percents (generate env s).events <+:
      (0 :: ((List.range' 0 FRAME_COUNT).map stagePercent ++ [85, 100])) := by
    rw [hpt]
    exact List.cons_prefix_cons.mpr ⟨rfl, htp⟩
  have hsorted := stagePercents_sorted
  refine ⟨hpre, ?_, ?_, ?_, ?_, ?_, ?_, ?_, ?_, ?_⟩
  · intro h
    rw [hpt, htok h]
  · rw [hpt]; rfl
  · exact List.Pairwise.sublist hpre.sublist hsorted
  · intro p hp
    have hp' := hpre.mem hp
    rw [List.mem_cons, List.mem_append] at hp'
    rcases hp' with rfl | h | h
    · decide
    · rcases List.mem_map.mp h with ⟨i, hi, rfl⟩
      have : i < 120 := by
        have := (List.mem_range'_1.mp hi).2
        simpa [FRAME_COUNT, FPS, DURATION_SECONDS] using this
      have := stagePercent_bounds i this
      omega
    · simp at h
      rcases h with rfl | rfl <;> decide
  · intro i hi
    have hi' : i < 120 := by simpa [FRAME_COUNT, FPS, DURATION_SECONDS] using hi
    refine ⟨?_, stagePercent_bounds i hi'⟩
    simp [stagePercent, jsRound, FRAME_COUNT, FPS, DURATION_SECONDS]
  · exact stagePercent_last
  · intro i δ hδ
    have h := stagePercent_stable i δ hδ
    simpa [jsRound, FRAME_COUNT, FPS, DURATION_SECONDS] using h
  · constructor
    · intro h
      rcases result_cases (generateBody env (generateStart s)).result with hr | ⟨e, hr⟩
      · exact hr
      · rw [hpt, List.mem_cons] at h
        rcases h with h | h
        · cases h
        · exact absurd h (hterr e hr)
    · intro h
      rw [hpt, htok h]
      simp
  · have herrs : ∀ l : List Event, (∀ ev ∈ l, ev.isLoad = true) → errors l = [] := by
      intro l hl
      apply filterMap_load_nil _ _ l hl
      intro ev h
      cases ev <;> first | rfl | cases h
    have herest : errors rest = [] := by
      have h1 := errors_mono hrest
      have h2 : errors (encodeEvents env ++ finishEvents) = [] := by
        have hs : errors ((List.range' 0 FRAME_COUNT).flatMap stageEvents) = [] := by
          apply filterMap_flatMap_nil
          intro k
          unfold stageEvents
          split <;> rfl
        have hc : errors ((List.range' 0 FRAME_COUNT).flatMap
            fun i => [Event.deleteFile (frameName i)]) = [] := by
          apply filterMap_flatMap_nil
          intro k
          rfl
        unfold encodeEvents finishEvents cleanupEvents
        simp only [errors_append, hs, hc]
        rfl
      exact List.prefix_nil.mp (h2 ▸ h1)
    constructor
    · intro h
      rw [hev, (hok h).2]
      simp only [errors_append, herrs ld hld, herest]
      rfl
    · intro h
      rcases result_cases (generateBody env (generateStart s)).result with hr | ⟨e, hr⟩
      · exact hr
      · rw [hev, (herr e hr).2] at h
        simp only [errors_append, herrs ld hld, herest] at h
        simp [errors] at h

/-- C2: in a run in which `exec` is called, it is called exactly once, with
exactly the argument list of lines 218-234 (whose second entry is the decimal
of FPS); the `writeFile` calls before it are exactly the 120 staged names in
ascending index order and none follows it; no file is read before it, at most
the one file output.mp4 is read after it, and it is read when the `try` body
completes. -/
theorem exec_spec (env : Env) (s : State) (args : List String)
    (h : Event.exec args ∈ (generate env s).events) :
    args = ["-r", "24", "-f", "image2", "-i", "frame%04d.png", "-vcodec", "libx264",
      "-pix_fmt", "yuv420p", "-preset", "veryfast", "-crf", "23", "-movflags", "+faststart",
      "output.mp4"] ∧
    jsString FPS = "24" ∧
    execs (generate env s).events = [args] ∧
    ∃ pre post, (generate env s).events = pre ++ Event.exec args :: post ∧
      writes pre = (List.range' 0 FRAME_COUNT).map frameName ∧
      (writes pre).length = 120 ∧
      writes post = [] ∧
      reads pre = [] ∧
      reads post <+: ["output.mp4"] ∧
      ((generateBody env (generateStart s)).result = .ok () → reads post = ["output.mp4"]) := by
  rcases generate_events env s with ⟨ld, rest, tail, hev, hld, hrest, hok, herr⟩
  have htail : execs tail = [] ∧ writes tail = [] ∧ reads tail = [] := by
    rcases result_cases (generateBody env (generateStart s)).result with hr | ⟨e, hr⟩
    · rw [(hok hr).2]; exact ⟨rfl, rfl, rfl⟩
    · rw [(herr e hr).2]; exact ⟨rfl, rfl, rfl⟩
  have hP : execs ([Event.getContext] ++ (List.range' 0 FRAME_COUNT).flatMap stageEvents) = [] := by
    rw [execs_append, execs_stage]; rfl
  have hQe : execs ([.setPercent 85, .readFile "output.mp4", .createObjectURL,
      .setVideoUrl env.objectURL] ++ finishEvents) = [] := by
    rw [execs_append, finishEvents, execs_append, execs_cleanup]; rfl
  have hQw : writes ([.setPercent 85, .readFile "output.mp4", .createObjectURL,
      .setVideoUrl env.objectURL] ++ finishEvents) = [] := by
    rw [writes_append, finishEvents, writes_append, writes_cleanup]; rfl
  have hQr : reads ([.setPercent 85, .readFile "output.mp4", .createObjectURL,
      .setVideoUrl env.objectURL] ++ finishEvents) = ["output.mp4"] := by
    rw [reads_append, finishEvents, reads_append, reads_cleanup]; rfl
  have hin : Event.exec args ∈ rest := by
    rw [mem_execs, hev] at h
    simp only [execs_append, execs_load ld hld, htail.1, List.append_nil] at h
    have h0 : execs [Event.setError "", .setVideoUrl "", .setPercent 0,
        .setIsGenerating true] = [] := rfl
    rw [h0, List.nil_append, List.nil_append] at h
    exact mem_execs.mpr h
  rw [encode_finish_split] at hrest hok
  obtain ⟨R, hR, hRQ⟩ := prefix_split hrest hin (by rw [mem_execs, hP]; simp)
  have hRe : execs R = [] := List.prefix_nil.mp (hQe ▸ execs_mono hRQ)
  have hRw : writes R = [] := List.prefix_nil.mp (hQw ▸ writes_mono hRQ)
  have hargs : args = execArgs := by
    rw [mem_execs, hR, execs_append, hP] at hin
    have : execs (Event.exec execArgs :: R) = execArgs :: execs R := rfl
    rw [this, hRe] at hin
    simpa using hin
  subst hargs
  refine ⟨by decide, by decide, ?_, ?_⟩
  · rw [hev, hR]
    simp only [execs_append, execs_load ld hld, htail.1, hP]
    have : execs (Event.exec execArgs :: R) = execArgs :: execs R := rfl
    rw [this, hRe]
    rfl
  · refine ⟨[.setError "", .setVideoUrl "", .setPercent 0, .setIsGenerating true] ++ ld ++
      ([Event.getContext] ++ (List.range' 0 FRAME_COUNT).flatMap stageEvents), R ++ tail,
      ?_, ?_, ?_, ?_, ?_, ?_, ?_⟩
    · rw [hev, hR]
      simp
    · simp only [writes_append, writes_load ld hld, writes_stage]
      rfl
    · simp only [writes_append, writes_load ld hld, writes_stage]
      simp [writes, FRAME_COUNT, FPS, DURATION_SECONDS]
    · rw [writes_append, hRw, htail.2.1]
      rfl
    · simp only [reads_append, reads_load ld hld, reads_stage]
      rfl
    · rw [reads_append, htail.2.2, List.append_nil, ← hQr]
      exact reads_mono hRQ
    · intro hr
      have h1 := (hok hr).1
      rw [hR] at h1
      have h2 := List.append_cancel_left h1
      rw [List.cons.injEq] at h2
      rw [reads_append, htail.2.2, List.append_nil, h2.2, hQr]

/-- C5: if `ensureCoreLoaded` throws (the engine object is missing, a resource
cannot be fetched or the engine fails to load), the run consists of the four
setters of lines 190-193, the events of the failed load, `setError` with the
text of the thrown value and `setIsGenerating(false)`: `writeFile`, `exec` and
`readFile` are never called and no frame is drawn, progress is set only to 0
and stays 0, both flags are false at the end, and the engine is as it was,
not loaded. -/
theorem load_failure_spec (env : Env) (s : State) (e : Thrown) (hs : Reachable s)
    (h : (ensureCoreLoaded env (generateStart s)).result = .error e) :
    (generate env s).events =
      [.setError "", .setVideoUrl "", .setPercent 0, .setIsGenerating true] ++
        (ensureCoreLoaded env (generateStart s)).events ++
        [.setError (errorText e), .setIsGenerating false] ∧
    (∀ ev ∈ (ensureCoreLoaded env (generateStart s)).events, ev.isLoad = true) ∧
    writes (generate env s).events = [] ∧
    execs (generate env s).events = [] ∧
    reads (generate env s).events = [] ∧
    (∀ i, Event.drawFrame i ∉ (generate env s).events) ∧
    percents (generate env s).events = [0] ∧
    (generate env s).state.percent = 0 ∧
    (generate env s).state.error = errorText e ∧
    (generate env s).state.videoUrl = "" ∧
    (generate env s).state.isLoadingCore = false ∧
    (generate env s).state.isGenerating = false ∧
    (generate env s).state.ffmpeg = s.ffmpeg ∧
    (∀ engine, (generate env s).state.ffmpeg = some engine → engine.loaded = false) := by
  have hf := ensureCoreLoaded_facts env (generateStart s)
  obtain ⟨hld, hpc, _, hvu, _, _, hlc, herr, _⟩ := hf
  have hidle := generate_idle env s (reachable_idle hs).1
  rcases generate_cases env s with ⟨e', h1, _, hg⟩ | ⟨e', h1, _, _, _⟩ | ⟨h1, _, _, _⟩
  · rw [h] at h1
    cases h1
    have hev : (generate env s).events =
        [.setError "", .setVideoUrl "", .setPercent 0, .setIsGenerating true] ++
          (ensureCoreLoaded env (generateStart s)).events ++
          [.setError (errorText e), .setIsGenerating false] := by rw [hg]
    have hff : (generate env s).state.ffmpeg = s.ffmpeg := by
      rw [hg]; exact (herr e h).1
    refine ⟨hev, hld, ?_, ?_, ?_, ?_, ?_, ?_, ?_, ?_, hidle.1, hidle.2, hff, ?_⟩
    · rw [hev]; simp only [writes_append, writes_load _ hld]; rfl
    · rw [hev]; simp only [execs_append, execs_load _ hld]; rfl
    · rw [hev]; simp only [reads_append, reads_load _ hld]; rfl
    · intro i hi
      rw [hev] at hi
      simp only [List.mem_append, List.mem_cons, List.mem_singleton, List.not_mem_nil,
        or_false, reduceCtorEq, false_or] at hi
      have := hld _ hi
      cases this
    · rw [hev]; simp only [percents_append, percents_load _ hld]; rfl
    · rw [hg]; exact hpc
    · rw [hg]
    · rw [hg]; exact hvu
    · intro engine hengine
      rw [hff] at hengine
      exact (herr e h).2 engine hengine
  · rw [h] at h1; cases h1
  · rw [h] at h1; cases h1

/-- C1 (the code at a failing input): when `ffmpeg.exec` throws after all 120
frames were staged, the run never calls `deleteFile`; it ends with the error
text set and the 120 staged files still in the engine's storage. -/
theorem cleanup_skipped_when_exec_throws :
    deletes (generate execThrowsEnv (mount initialState)).events = [] ∧
    (generate execThrowsEnv (mount initialState)).state.error = "encode failed" ∧
    ∃ engine, (generate execThrowsEnv (mount initialState)).state.ffmpeg = some engine ∧
      ∀ j, j < 120 → frameName j ∈ engine.files :=
  generate_exec_error execThrowsEnv (mount initialState) { loaded := false, files := [] }
    (jsError "encode failed") rfl (Or.inr ⟨fun _ => rfl, rfl⟩)
    ⟨rfl, fun _ => rfl, fun _ => rfl⟩ rfl

theorem exec_spec_witness :
    Event.exec execArgs ∈ (generate okEnv (mount initialState)).events ∧
    execs (generate okEnv (mount initialState)).events = [execArgs] :=
  have hok : (generateBody okEnv (generateStart (mount initialState))).result = .ok () :=
    generateBody_ok okEnv (mount initialState) { loaded := false, files := [] } rfl
      (Or.inr ⟨fun _ => rfl, rfl⟩) ⟨rfl, fun _ => rfl, fun _ => rfl⟩ rfl rfl rfl
  ⟨exec_of_ok okEnv _ hok,
    (exec_spec okEnv (mount initialState) execArgs (exec_of_ok okEnv _ hok)).2.2.1⟩

theorem load_failure_witness :
    Reachable (mount initialState) ∧
    (ensureCoreLoaded offlineEnv (generateStart (mount initialState))).result =
      .error (jsError "Failed to fetch") ∧
    writes (generate offlineEnv (mount initialState)).events = [] ∧
    (generate offlineEnv (mount initialState)).state.percent = 0 ∧
    (generate offlineEnv (mount initialState)).state.error = "Failed to fetch" :=
  have hs : Reachable (mount initialState) := Reachable.mount Reachable.initial
  have h : (ensureCoreLoaded offlineEnv (generateStart (mount initialState))).result =
      .error (jsError "Failed to fetch") := rfl
  have hc := load_failure_spec offlineEnv (mount initialState) (jsError "Failed to fetch") hs h
  ⟨hs, h, hc.2.2.1, hc.2.2.2.2.2.2.2.1, hc.2.2.2.2.2.2.2.2.1.trans (by decide)⟩

/-- C9: in a run that reaches `setPercent(100)` (staging, encode and read all
succeeded), whatever deletions throw, the 121 `deleteFile` calls are all made,
frame0001.png..frame0120.png then output.mp4, as the last events before
`setIsGenerating(false)`; `setError` is called only at run start, and the run
ends with empty error text, progress 100 and the video URL set. Running the
cleanup again from the final state, in any environment, completes without
throwing, makes the same 121 calls and leaves error text, progress and video
URL as they are; a deletion of a file that is not stored does throw. -/
theorem cleanup_tolerant (env : Env) (s : State)
    (h : Event.setPercent 100 ∈ (generate env s).events) :
    deletes (generate env s).events =
      (List.range' 0 FRAME_COUNT).map frameName ++ ["output.mp4"] ∧
    (deletes (generate env s).events).length = 121 ∧
    (∃ pre, (generate env s).events = pre ++ cleanupEvents ++ [.setIsGenerating false]) ∧
    errors (generate env s).events = [""] ∧
    (generate env s).state.error = "" ∧
    (generate env s).state.percent = 100 ∧
    (generate env s).state.videoUrl = env.objectURL ∧
    (∀ env2 : Env,
      (cleanup env2 (generate env s).state).result = .ok () ∧
      deletes (cleanup env2 (generate env s).state).events =
        (List.range' 0 FRAME_COUNT).map frameName ++ ["output.mp4"] ∧
      (cleanup env2 (generate env s).state).state.error = "" ∧
      (cleanup env2 (generate env s).state).state.percent = 100 ∧
      (cleanup env2 (generate env s).state).state.videoUrl = env.objectURL) ∧
    (∀ (env2 : Env) (name : String) (s2 : State) (engine : Engine),
      s2.ffmpeg = some engine → name ∉ engine.files →
      ∃ e, (deleteFile env2 name s2).result = .error e) := by
  have hok := (done_iff_ok env s).mp h
  have hld := (ensureCoreLoaded_facts env (generateStart s)).1
  have hen := (ensureCoreLoaded_facts env (generateStart s)).2.2.1
  have hdel : deletes (generate env s).events =
      (List.range' 0 FRAME_COUNT).map frameName ++ ["output.mp4"] := by
    rcases generate_events env s with ⟨ld, rest, tail, hev, hld', _, hok', _⟩
    rw [hev, (hok' hok).1, (hok' hok).2]
    have hd : deletes (encodeEvents env) = [] := by
      unfold encodeEvents
      simp only [deletes_append, deletes_stage]
      rfl
    simp only [deletes_append, deletes_load _ hld', hd, finishEvents, deletes_cleanup]
    rfl
  have herrs : errors (generate env s).events = [""] := by
    rcases generate_events env s with ⟨ld, rest, tail, hev, hld', _, hok', _⟩
    have hl : errors ld = [] := by
      apply filterMap_load_nil _ _ ld hld'
      intro ev h
      cases ev <;> first | rfl | cases h
    have hs : errors ((List.range' 0 FRAME_COUNT).flatMap stageEvents) = [] := by
      apply filterMap_flatMap_nil
      intro k
      unfold stageEvents
      split <;> rfl
    have hc : errors ((List.range' 0 FRAME_COUNT).flatMap
        fun i => [Event.deleteFile (frameName i)]) = [] := by
      apply filterMap_flatMap_nil
      intro k
      rfl
    rw [hev, (hok' hok).1, (hok' hok).2]
    unfold encodeEvents finishEvents cleanupEvents
    simp only [errors_append, hl, hs, hc]
    rfl
  rcases generate_cases env s with ⟨e, _, hb, _⟩ | ⟨e, _, _, hb, _⟩ | ⟨_, h2, _, hg⟩
  · rw [hok] at hb; cases hb
  · rw [hok] at hb; cases hb
  · have herror : (generate env s).state.error = "" := by
      rw [hg]
      exact (preserves_finishPart (fun s => s.error) (fun _ _ => rfl) (fun _ _ => rfl) env
        _).trans ((preserves_encodePart (fun s => s.error) (fun _ _ => rfl) (fun _ _ => rfl)
          (fun _ _ => rfl) env _).trans hen)
    have hpercent : (generate env s).state.percent = 100 := by
      rw [hg]
      exact finishPart_percent env _
    have hurl : (generate env s).state.videoUrl = env.objectURL := by
      rw [hg]
      exact (preserves_finishPart (fun s => s.videoUrl) (fun _ _ => rfl) (fun _ _ => rfl)
        env _).trans (ends_encodePart_videoUrl env _ h2)
    refine ⟨hdel, ?_, ?_, herrs, herror, hpercent, hurl, ?_, ?_⟩
    · rw [hdel]
      simp [FRAME_COUNT, FPS, DURATION_SECONDS]
    · refine ⟨[.setError "", .setVideoUrl "", .setPercent 0, .setIsGenerating true] ++
        ((ensureCoreLoaded env (generateStart s)).events ++ (encodeEvents env ++
          [.setPercent 100])), ?_⟩
      rw [hg]
      simp [finishEvents]
    · intro env2
      refine ⟨neverThrows_cleanup env2 _, ?_, ?_, ?_, ?_⟩
      · rw [cleanup_events, deletes_cleanup]
      · exact (preserves_cleanup (fun s => s.error) (fun _ _ => rfl) env2 _).trans herror
      · exact (preserves_cleanup (fun s => s.percent) (fun _ _ => rfl) env2 _).trans hpercent
      · exact (preserves_cleanup (fun s => s.videoUrl) (fun _ _ => rfl) env2 _).trans hurl
    · intro env2 name s2 engine hs2 hname
      unfold deleteFile engineCall
      cases hfault : env2.deleteFile name with
      | some e => exact ⟨e, by simp [hs2]⟩
      | none => exact ⟨fsError, by simp [hs2, hname]⟩

theorem cleanup_tolerant_witness :
    Event.setPercent 100 ∈ (generate noDeleteEnv (mount initialState)).events ∧
    (deletes (generate noDeleteEnv (mount initialState)).events).length = 121 ∧
    (generate noDeleteEnv (mount initialState)).state.error = "" :=
  have hok : (generateBody noDeleteEnv (generateStart (mount initialState))).result = .ok () :=
    generateBody_ok noDeleteEnv (mount initialState) { loaded := false, files := [] } rfl
      (Or.inr ⟨fun _ => rfl, rfl⟩) ⟨rfl, fun _ => rfl, fun _ => rfl⟩ rfl rfl rfl
  have h := (done_iff_ok noDeleteEnv (mount initialState)).mpr hok
  have hc := cleanup_tolerant noDeleteEnv (mount initialState) h
  ⟨h, hc.2.1, hc.2.2.2.2.1⟩

/-- C6: the calls `drawFrame` makes for a frame, with the settings and the path
in force at each painting call, are the same on the context of a new canvas
and on a context that earlier `drawFrame` calls (any frames, in any order)
have drawn on: the log of the latter is what was there before followed by
exactly the log of the former. More generally they are the same on any two
contexts whose settings agree except for `fillStyle`, whatever their stacks,
paths and logs. Every `save` is matched by a `restore` (the nesting is well
formed and returns to depth 0, the stack of saved settings is as before), so
the settings after the call are those before it with only `fillStyle`
replaced, by the background gradient; and the call starts by setting
`fillStyle` before its first painting call, the `fillRect` of the background.
In `generate` the frames are drawn on one canvas in index order from 0. -/
theorem drawFrame_independent {α : Type} [LinearOrderedField α] [FloorRing α] (M : JsMath α)
    (earlier : List α) (frameIndex : α) :
    (drawFrame M (earlier.foldl (drawFrame M) Ctx.fresh) frameIndex).log =
      (earlier.foldl (drawFrame M) Ctx.fresh).log ++ (drawFrame M Ctx.fresh frameIndex).log ∧
    (∀ c c' : Ctx α, c.settings.sameButFill c'.settings →
      ∃ N, (drawFrame M c frameIndex).log = c.log ++ N ∧
        (drawFrame M c' frameIndex).log = c'.log ++ N) ∧
    (∀ c : Ctx α,
      (drawFrame M c frameIndex).settings = { c.settings with fillStyle := backgroundStyle } ∧
      (drawFrame M c frameIndex).stack = c.stack) ∧
    saveDepth (drawFrame M Ctx.fresh frameIndex).log 0 = some 0 ∧
    (∃ rest, (drawFrame M Ctx.fresh frameIndex).log =
      [.createLinearGradient 0 0 0 (HEIGHT : α),
       .fillRect 0 0 (WIDTH : α) (HEIGHT : α)
        { (Ctx.fresh : Ctx α).settings with fillStyle := backgroundStyle }] ++ rest) ∧
    (∀ (env : Env) (s : State), draws (generate env s).events <+: List.range' 0 FRAME_COUNT) := by
  have hsame := sameButFill_frames M earlier Ctx.fresh (sameButFill_refl _)
  have h := drawFrame_sim M frameIndex Ctx.fresh (earlier.foldl (drawFrame M) Ctx.fresh) hsame
  obtain ⟨N, hN, hN', hd⟩ := h.1.log
  have hfresh : (drawFrame M Ctx.fresh frameIndex).log = N := by
    rw [hN]
    rfl
  refine ⟨by rw [hN', hfresh], ?_, ?_, by rw [hfresh]; exact hd, ?_, draws_generate⟩
  · intro c c' hcc
    obtain ⟨N', h1, h2, _⟩ := (drawFrame_sim M frameIndex c c' hcc).1.log
    exact ⟨N', h1, h2⟩
  · intro c
    have hc := drawFrame_sim M frameIndex c c (sameButFill_refl _)
    exact ⟨hc.2, by rw [hc.1.stack]; rfl⟩
  · have h0 := drawBackground_sim (Ctx.fresh : Ctx α) Ctx.fresh (sameButFill_refl _)
    have h1 := drawLayers_sim M (frameTime frameIndex) (Sim.refl (drawBackground Ctx.fresh))
    obtain ⟨N', h2, _, _⟩ := h1.1.log
    refine ⟨N', ?_⟩
    have h3 : (drawFrame M Ctx.fresh frameIndex).log = (drawBackground Ctx.fresh).log ++ N' := h2
    rw [h3, h0.2.2]
    rfl


/-- C10: in real arithmetic no call made by `drawFrame`, for any frame index
(so for any time t) and on a context that any earlier frames were drawn on, is
passed a negative radius. The sphere radius is r = min(720, 1280) * 0.32 =
230.4, so r and r * 1.1 are positive; for every ring index from 1 up to but
excluding 8 the latitude lies strictly between -pi/2 and pi/2, so r * cos(lat)
is positive and `max(ry, 0)` is `ry`; the argument of `Math.sqrt` is never
negative, the meridian loop runs only at offsets k from -r to r, where
r * r - k * k itself is non-negative, and every sampled x is within r of cx;
and the radius of every orbiting node lies in [0.5, 3.5]. -/
theorem drawFrame_radii (M : JsMath ℝ) (hPI : M.PI = Real.pi) (hsin : M.sin = Real.sin)
    (hcos : M.cos = Real.cos) (hsqrt : M.sqrt = Real.sqrt) :
    (r : ℝ) = min 720 1280 * 0.32 ∧ (r : ℝ) = 230.4 ∧ (0 : ℝ) < r ∧ (0 : ℝ) < r * 1.1 ∧
    (∀ frames : List ℝ, ∀ instr ∈ (frames.foldl (drawFrame M) Ctx.fresh).log,
      instr.radiiOk) ∧
    (∀ i : ℝ, 1 ≤ i → i < 8 →
      -(Real.pi / 2) < latitude M i ∧ latitude M i < Real.pi / 2 ∧
      0 < ringRy M (latitude M i) ∧
      max (ringRy M (latitude M i)) 0 = ringRy M (latitude M i)) ∧
    (∀ k : ℝ, 0 ≤ sqrtArg k) ∧
    (∀ (body : ℝ → Ctx ℝ → Ctx ℝ) (ctx : Ctx ℝ),
      forLe (r : ℝ) 2 (by norm_num) body (-r) ctx =
        forLe (r : ℝ) 2 (by norm_num)
          (fun k ctx => if -r ≤ k ∧ k ≤ r then body k ctx else ctx) (-r) ctx) ∧
    (∀ k : ℝ, -r ≤ k → k ≤ r → 0 ≤ r * r - k * k ∧ sqrtArg k = r * r - k * k) ∧
    (∀ lon k : ℝ, |meridianX M (M.cos lon) k - cx| ≤ r) ∧
    (∀ a t : ℝ, 0.5 ≤ nodeSize M a t ∧ nodeSize M a t ≤ 3.5) := by
  have hr : (0 : ℝ) < r := r_pos
  have hsq : ∀ k : ℝ, -r ≤ k → k ≤ r → 0 ≤ r * r - k * k := by
    intro k h1 h2
    nlinarith [mul_nonneg (sub_nonneg.mpr h2) (by linarith : (0 : ℝ) ≤ r + k)]
  refine ⟨?_, r_eq, hr, mul_pos hr (by norm_num), ?_, ?_, ?_, ?_, ?_, ?_, ?_⟩
  · unfold r WIDTH HEIGHT
    norm_num
  · intro frames
    exact frames_safe M (fun x => by rw [hsin]; exact Real.neg_one_le_sin x) frames Ctx.fresh
      (fun _ hmem => by cases hmem)
  · intro i h1 h8
    have hpi := Real.pi_pos
    have hlo : -(Real.pi / 2) < latitude M i := by
      unfold latitude
      rw [hPI]
      have : 0 < i / 8 * Real.pi := by positivity
      linarith
    have hhi : latitude M i < Real.pi / 2 := by
      unfold latitude
      rw [hPI]
      have : i / 8 * Real.pi < 1 * Real.pi :=
        mul_lt_mul_of_pos_right (by linarith) hpi
      linarith
    have hc : 0 < ringRy M (latitude M i) := by
      unfold ringRy
      rw [hcos]
      exact mul_pos hr (Real.cos_pos_of_mem_Ioo ⟨hlo, hhi⟩)
    exact ⟨hlo, hhi, hc, max_eq_left hc.le⟩
  · intro k
    exact le_max_left _ _
  · intro body ctx
    exact forLe_guard (r : ℝ) 2 (by norm_num) body (-r) (-r) ctx le_rfl
  · intro k h1 h2
    exact ⟨hsq k h1 h2, max_eq_right (hsq k h1 h2)⟩
  · intro lon k
    unfold meridianX
    rw [hsqrt, hcos, add_sub_cancel_left, abs_mul]
    have h0 : (0 : ℝ) ≤ sqrtArg k := le_max_left _ _
    have h1 : sqrtArg k ≤ r * r := by
      unfold sqrtArg
      exact max_le (by positivity) (by nlinarith [mul_self_nonneg k])
    have h2 : Real.sqrt (sqrtArg k) ≤ r := by
      rw [← Real.sqrt_mul_self hr.le]
      exact Real.sqrt_le_sqrt h1
    rw [abs_of_nonneg (Real.sqrt_nonneg _)]
    calc Real.sqrt (sqrtArg k) * |Real.cos lon|
        ≤ Real.sqrt (sqrtArg k) * 1 :=
          mul_le_mul_of_nonneg_left (Real.abs_cos_le_one lon) (Real.sqrt_nonneg _)
      _ = Real.sqrt (sqrtArg k) := mul_one _
      _ ≤ r := h2
  · intro a t
    unfold nodeSize
    rw [hsin]
    have h1 := Real.neg_one_le_sin (a * 3 + t * 5)
    have h2 := Real.sin_le_one (a * 3 + t * 5)
    constructor <;> norm_num <;> linarith

theorem drawFrame_radii_witness :
    (r : ℝ) = 230.4 ∧
    ∀ instr ∈ (drawFrame (⟨Real.pi, Real.sin, Real.cos, Real.sqrt, fun _ => "0.75"⟩ : JsMath ℝ)
      Ctx.fresh 0).log, instr.radiiOk :=
  have h := drawFrame_radii ⟨Real.pi, Real.sin, Real.cos, Real.sqrt, fun _ => "0.75"⟩
    rfl rfl rfl rfl
  ⟨h.2.1, h.2.2.2.2.1 [0]⟩

end Reel
